import Mathlib

/-!
# masquerade-dns: limiter, switcher and resolver

A shallow embedding of the request-processing engine of `masquerade-dns`:

* `dnslimiter`  (`internal/services/dnslimiter/dnslimiter.go`),
* `dnsswitcher` (`internal/services/dnsswitcher/dnsswitcher.go`),
* `dnsresolver` (`internal/services/dnsresolver/dnsresolver.go`).

Conventions.

* Go strings are Lean strings; a `net.IP` is a list of bytes and a nil slice or nil
  pointer is `none`.
* A Go `int` that is never used in overflowing arithmetic is an `Int`; the `uint16`
  and `uint32` fields are copied, never computed with, and are naturals.
* A panic is `Except.error` carrying the panic text.
* Log lines are left out; the metric counters the services increment are the
  record `Metrics`, passed in and returned.
* Library functions whose text grammar is outside the repository (`net.IP.String`,
  the IPv6 text form, `regexp`) are fields of `Lib`; every definition that needs one
  takes a `Lib`, and the theorems hold for every `Lib`.
-/

namespace MasqueradeDNS

/-! ## Shared types -/

/-- The Go type `net.IP`, a byte slice. -/
abbrev IP := List UInt8

/-- Go constant `net.IPv4len`. -/
def IPv4len : Nat := 4

/-- Go constant `net.IPv6len`. -/
def IPv6len : Nat := 16

/-- Library functions used by the services whose text grammars live outside the
repository. -/
structure Lib where
  /-- The method `net.IP.String`. -/
  ipString : IP → String
  /-- The IPv6 branch of `net.ParseIP`: the 16 bytes of an IPv6 literal without zone,
  or nothing. -/
  parseIPv6 : String → Option { b : List UInt8 // b.length = 16 }
  /-- The function `regexp.Compile` followed by `MatchString`: nothing when the
  expression does not compile, else the search predicate. -/
  regexpCompile : String → Option (String → Bool)

/-! ## dnslimiter -/

namespace dnslimiter

/-- A value held by the cache (`interface{}`): the limiter stores `int`s only; any
other dynamic type is `other`. -/
inductive Value where
  | int (n : Int)
  | other (tag : String)
deriving DecidableEq, Repr

/-- One cache entry: value, cost, and the instant after which it is expired
(`none`: never). -/
structure Item where
  value : Value
  cost : Int
  expiration : Option Nat
deriving DecidableEq, Repr

/-- A pending or stored entry under its key. -/
abbrev Entry := String × Item

/-- The cache: the store that `Get` reads, and the set buffer holding the entries of
new keys that the cache's background worker has not admitted yet. A write to a key
that is in the store is applied at once; a write to a new key only enters the set
buffer and becomes visible when the worker admits it. Eviction, the removal of
expired entries and a full set buffer are not modelled. -/
structure Cache where
  store : List Entry
  setBuf : List Entry
deriving DecidableEq, Repr

/-- The cache read `cache.Get(key)` at instant `now`: it reads the store only, and an
entry whose expiration lies before `now` behaves as absent. -/
def Cache.Get (c : Cache) (now : Nat) (key : String) : Option Value :=
  match c.store.lookup key with
  | none => none
  | some it =>
    match it.expiration with
    | none => some it.value
    | some e => if e < now then none else some it.value

/-- The cache write `cache.SetWithTTL(key, value, cost, ttl)` at instant `now`: a
negative ttl stores nothing, a zero ttl stores without expiration, a positive ttl
expires at `now + ttl`. When the key is in the store the entry replaces the older one
at once (`store.Update`); otherwise it is appended to the set buffer. -/
def Cache.SetWithTTL (c : Cache) (now : Nat) (key : String) (value : Value) (cost : Int)
    (ttl : Int) : Cache :=
  if ttl < 0 then c
  else
    let expiration := if ttl = 0 then none else some (now + ttl.toNat)
    let item : Item := { value := value, cost := cost, expiration := expiration }
    match c.store.lookup key with
    | some _ =>
      { store := (key, item) :: c.store.filter (fun e => e.1 != key), setBuf := c.setBuf }
    | none => { store := c.store, setBuf := c.setBuf ++ [(key, item)] }

/-- One step of the background worker (`processItems`) on the oldest pending entry:
it is admitted into the store, unless its key is in the store already, in which case
it is rejected. -/
def Cache.processItem (c : Cache) : Cache :=
  match c.setBuf with
  | [] => c
  | (key, item) :: rest =>
    match c.store.lookup key with
    | some _ => { store := c.store, setBuf := rest }
    | none => { store := (key, item) :: c.store, setBuf := rest }

/-- The background worker taking `k` steps. -/
def Cache.processItems (c : Cache) : Nat → Cache
  | 0 => c
  | k + 1 => (c.processItem).processItems k

/-- The struct `dnslimiter.Config`. -/
structure Config where
  TTL : Int
deriving DecidableEq, Repr

/-- The struct `dnslimiter.Service`. -/
structure Service where
  config : Config
  cache : Cache
deriving DecidableEq, Repr

/-- The constructor `dnslimiter.NewService`: an empty cache. -/
def NewService (config : Config) : Service :=
  { config := config, cache := { store := [], setBuf := [] } }

/-- The function `makeKey`: `fmt.Sprintf("%s:%s", addr.String(), source)`. -/
def makeKey (L : Lib) (addr : IP) (source : String) : String :=
  L.ipString addr ++ ":" ++ source

/-- The method `Service.Limit`, called at instant `now`; returns the verdict and the
service after the call. -/
def Limit (L : Lib) (s : Service) (now : Nat) (addr : IP) (source : String)
    (maxCount : Int) : Bool × Service :=
  if maxCount = 0 then (false, s)
  else
    let key := makeKey L addr source
    match s.cache.Get now key with
    | none =>
      (false, { s with cache := s.cache.SetWithTTL now key (Value.int 0) 1 s.config.TTL })
    | some value =>
      match value with
      | Value.other _ => (false, s)
      | Value.int count =>
        if count < maxCount then
          (false,
            { s with cache := s.cache.SetWithTTL now key (Value.int (count + 1)) 1 s.config.TTL })
        else (true, s)

/-- Sequential calls of `Limit` with the same arguments. Each call is a pair
`(steps, now)`: before the call the cache's background worker takes `steps` steps,
then `Limit` is called at instant `now`. Returns the verdicts in call order and the
final service. -/
def LimitSeq (L : Lib) (s : Service) (calls : List (Nat × Nat)) (addr : IP) (source : String)
    (maxCount : Int) : List Bool × Service :=
  match calls with
  | [] => ([], s)
  | (steps, now) :: cs =>
    let s1 : Service := { config := s.config, cache := s.cache.processItems steps }
    let r := Limit L s1 now addr source maxCount
    let rest := LimitSeq L r.2 cs addr source maxCount
    (r.1 :: rest.1, rest.2)

end dnslimiter

/-! ## metrics and trace -/

/-- The counters of `metrics.Metrics` that the switcher and the resolver touch: one
count per label value for the vectors, one number for the plain counter. -/
structure Metrics where
  resolvedDNSRequests : List (String × Nat)
  switchedDNSRequests : List (String × Nat)
  limitedDNSRequests : Nat
deriving DecidableEq, Repr

/-- The constructor `metrics.NewMetrics`: all counters at zero. -/
def NewMetrics : Metrics :=
  { resolvedDNSRequests := [], switchedDNSRequests := [], limitedDNSRequests := 0 }

/-- The step `WithLabelValues(label).Inc()` on a counter vector. -/
def incLabel (label : String) : List (String × Nat) → List (String × Nat)
  | [] => [(label, 1)]
  | (l, n) :: rest => if l = label then (l, n + 1) :: rest else (l, n) :: incLabel label rest

/-- Go constant `metrics.StatusSuccess`. -/
def StatusSuccess : String := "success"

/-- Go constant `metrics.StatusFailed`. -/
def StatusFailed : String := "failed"

/-- The method `Metrics.IncResolvedDNSRequests`. -/
def Metrics.IncResolvedDNSRequests (m : Metrics) (status : String) : Metrics :=
  { m with resolvedDNSRequests := incLabel status m.resolvedDNSRequests }

/-- The method `Metrics.IncSwitchedDNSRequests`. -/
def Metrics.IncSwitchedDNSRequests (L : Lib) (m : Metrics) (addr : IP) : Metrics :=
  { m with switchedDNSRequests := incLabel (L.ipString addr) m.switchedDNSRequests }

/-- The method `Metrics.IncLimitedDNSRequests`. -/
def Metrics.IncLimitedDNSRequests (m : Metrics) : Metrics :=
  { m with limitedDNSRequests := m.limitedDNSRequests + 1 }

/-- A request context, reduced to the value stored under `traceIDKey` (`none` when the
context carries no trace identifier). -/
abbrev Context := Option String

/-- The function `trace.PackTraceID`. -/
def PackTraceID (_ctx : Context) (traceID : String) : Context := some traceID

/-- The function `trace.UnpackTraceID`: panics on a context without trace identifier. -/
def UnpackTraceID (ctx : Context) : Except String String :=
  match ctx with
  | some traceID => .ok traceID
  | none => .error "trace ID not found in context"

/-! ## The DNS message types of the wire library -/

namespace dns

/-- Go constant `dns.TypeA`. -/
def TypeA : Nat := 1
/-- Go constant `dns.TypeCNAME`. -/
def TypeCNAME : Nat := 5
/-- Go constant `dns.TypeAAAA`. -/
def TypeAAAA : Nat := 28
/-- Go constant `dns.TypeHTTPS`. -/
def TypeHTTPS : Nat := 65
/-- Go constant `dns.ClassINET`. -/
def ClassINET : Nat := 1
/-- Go constant `dns.OpcodeQuery`. -/
def OpcodeQuery : Int := 0
/-- Go constant `dns.RcodeSuccess` (NOERROR). -/
def RcodeSuccess : Int := 0
/-- Go constant `dns.RcodeServerFailure` (SERVFAIL). -/
def RcodeServerFailure : Int := 2

/-- The struct `dns.RR_Header`. -/
structure RR_Header where
  Name : String
  Rrtype : Nat
  Class : Nat
  Ttl : Nat
  Rdlength : Nat
deriving DecidableEq, Repr

/-- The SVCB parameters the switcher builds: `SVCBAlpn`, `SVCBIPv4Hint`,
`SVCBIPv6Hint`. -/
inductive SVCBKeyValue where
  | Alpn (alpn : List String)
  | IPv4Hint (hint : List IP)
  | IPv6Hint (hint : List IP)
deriving DecidableEq, Repr

/-- A resource record (`dns.RR`): the four record structs the switcher builds, and any
other record as header and opaque data. -/
inductive RR where
  | A (Hdr : RR_Header) (A : IP)
  | AAAA (Hdr : RR_Header) (AAAA : IP)
  | CNAME (Hdr : RR_Header) (Target : String)
  | HTTPS (Hdr : RR_Header) (Priority : Nat) (Target : String) (Value : List SVCBKeyValue)
  | Other (Hdr : RR_Header) (Rdata : List UInt8)
deriving DecidableEq, Repr

/-- The method `RR.Header()`. -/
def RR.Header : RR → RR_Header
  | .A h _ => h
  | .AAAA h _ => h
  | .CNAME h _ => h
  | .HTTPS h _ _ _ => h
  | .Other h _ => h

/-- The struct `dns.Question`. -/
structure Question where
  Name : String
  Qtype : Nat
  Qclass : Nat
deriving DecidableEq, Repr

/-- The struct `dns.Msg` with its embedded `MsgHdr`. -/
structure Msg where
  Id : Nat
  Response : Bool
  Opcode : Int
  Authoritative : Bool
  Truncated : Bool
  RecursionDesired : Bool
  RecursionAvailable : Bool
  Zero : Bool
  AuthenticatedData : Bool
  CheckingDisabled : Bool
  Rcode : Int
  Compress : Bool
  Question : List Question
  Answer : List RR
  Ns : List RR
  Extra : List RR
deriving DecidableEq, Repr

/-- The zero value `&dns.Msg{}`. -/
def Msg.zero : Msg :=
  { Id := 0, Response := false, Opcode := 0, Authoritative := false, Truncated := false,
    RecursionDesired := false, RecursionAvailable := false, Zero := false,
    AuthenticatedData := false, CheckingDisabled := false, Rcode := 0, Compress := false,
    Question := [], Answer := [], Ns := [], Extra := [] }

/-- The method `Msg.SetReply`: identifier and opcode copied, reply flag set, the rd and
cd bits copied for a standard query, Rcode NOERROR, and the first question copied. -/
def Msg.SetReply (m : Msg) (request : Msg) : Msg :=
  let m1 := { m with Id := request.Id, Response := true, Opcode := request.Opcode }
  let m2 :=
    if m1.Opcode = OpcodeQuery then
      { m1 with RecursionDesired := request.RecursionDesired,
                CheckingDisabled := request.CheckingDisabled }
    else m1
  let m3 := { m2 with Rcode := RcodeSuccess }
  match request.Question with
  | [] => m3
  | q :: _ => { m3 with Question := [q] }

/-- The method `Msg.SetRcode`: `SetReply`, then the given Rcode. -/
def Msg.SetRcode (m : Msg) (request : Msg) (rcode : Int) : Msg :=
  { m.SetReply request with Rcode := rcode }

/-- The function `dns.IsFqdn`: the name ends in a dot that is not escaped. With `i` the
byte index of the last character other than a backslash before the final dot (`-1`
when there is none), the dot is unescaped when `len - i` is odd. -/
def IsFqdn (s : String) : Bool :=
  match s.toList.reverse with
  | [] => false
  | c :: rest =>
    if c != '.' then false
    else
      match rest with
      | [] => true
      | d :: _ =>
        if d != '\\' then true
        else
          let k := (rest.takeWhile (fun x => x == '\\')).length
          let w :=
            match rest.dropWhile (fun x => x == '\\') with
            | [] => 1
            | e :: _ => e.utf8Size
          (k + w) % 2 != 0

/-- The function `dns.Fqdn`: the name itself when fully qualified, else the name with
a dot appended. -/
def Fqdn (s : String) : String :=
  if IsFqdn s then s else s ++ "."

end dns

/-! ## Text helpers of the standard library -/

/-- The call `strings.HasPrefix(s, "/")`. -/
def hasSlashPrefix (s : String) : Bool :=
  match s.toList with
  | [] => false
  | c :: _ => c == '/'

/-- The call `strings.HasSuffix(s, "/")`. -/
def hasSlashSuffix (s : String) : Bool :=
  match s.toList.reverse with
  | [] => false
  | c :: _ => c == '/'

/-- The call `strings.Trim(s, "/")`: all leading and trailing slashes removed. -/
def trimSlashes (s : String) : String :=
  String.mk (((s.toList.dropWhile (fun c => c == '/')).reverse.dropWhile
    (fun c => c == '/')).reverse)

/-- The loop of `netip.parseIPv4` over the remaining characters: `first` says the
character is at index 0, `prevDot` that the preceding one was a dot; `val`, `pos` and
`digLen` are the loop variables and `fields` the octets stored so far. -/
def parseIPv4Loop : List Char → Bool → Bool → Nat → Nat → Nat → List UInt8 →
    Option (List UInt8)
  | [], _, _, val, pos, _, fields =>
    if pos < 3 then none else some (fields ++ [UInt8.ofNat val])
  | c :: rest, first, prevDot, val, pos, digLen, fields =>
    if '0' ≤ c ∧ c ≤ '9' then
      if digLen = 1 ∧ val = 0 then none
      else
        let val1 := val * 10 + (c.toNat - '0'.toNat)
        if val1 > 255 then none
        else parseIPv4Loop rest false false val1 pos (digLen + 1) fields
    else if c = '.' then
      if first ∨ rest = [] ∨ prevDot then none
      else if pos = 3 then none
      else parseIPv4Loop rest false true 0 (pos + 1) 0 (fields ++ [UInt8.ofNat val])
    else none

/-- The function `netip.parseIPv4`: the four octets of a dotted-decimal literal. -/
def parseIPv4 (s : String) : Option (List UInt8) :=
  parseIPv4Loop s.toList true false 0 0 0 []

/-- The 16-byte form of an IPv4 address (`Addr.As16`): ten zero bytes, two bytes
`0xff`, then the four octets. -/
def v4InV6 (b : List UInt8) : IP :=
  [0, 0, 0, 0, 0, 0, 0, 0, 0, 0, 0xff, 0xff] ++ b

/-- The function `net.ParseIP`: the first of `.`, `:` and `%` in the text selects the
IPv4 or the IPv6 grammar; the result is nil or the 16-byte form of the address, also
for an IPv4 literal. -/
def ParseIP (L : Lib) (s : String) : Option IP :=
  match s.toList.find? (fun c => c == '.' || c == ':' || c == '%') with
  | some c =>
    if c = '.' then (parseIPv4 s).map v4InV6
    else if c = ':' then (L.parseIPv6 s).map (fun b => b.val)
    else none
  | none => none

/-! ## dnsswitcher -/

namespace dnsswitcher

/-- The interface `dnsLimiter` over a limiter state `σ`: the verdict of
`Limit(addr, source, maxCount)` and the limiter after the call. -/
abbrev dnsLimiter (σ : Type) := σ → IP → String → Int → Bool × σ

/-- The struct `dnsHTTPSAnswer`. -/
structure dnsHTTPSAnswer where
  Priority : Nat
  Target : String
  ALPN : Option (List String)
  IPv4Hint : Option (List IP)
  IPv6Hint : Option (List IP)
deriving DecidableEq, Repr

/-- The struct `dnsAnswer`. -/
structure dnsAnswer where
  A : Option IP
  AAAA : Option IP
  CNAME : String
  HTTPS : Option dnsHTTPSAnswer
deriving DecidableEq, Repr

/-- The struct `switchConfig`. -/
structure switchConfig where
  Source : String
  Destination : String
  Answer : Option dnsAnswer
  MaxCount : Int
  TTL : Nat
deriving DecidableEq, Repr

/-- The struct `dnsswitcher.Config`. -/
structure Config where
  Settings : List switchConfig
deriving DecidableEq, Repr

/-- The mutable parts a `dnsswitcher.Service` points to: its limiter and the metrics. -/
structure State (σ : Type) where
  limiter : σ
  metrics : Metrics

/-- The function `makeDNSAnswerA`. -/
def makeDNSAnswerA (name : String) (addr : IP) (ttl : Nat) : dns.RR :=
  dns.RR.A
    { Name := dns.Fqdn name, Rrtype := dns.TypeA, Class := dns.ClassINET, Ttl := ttl,
      Rdlength := 4 }
    addr

/-- The function `makeDNSAnswerAAAA`. -/
def makeDNSAnswerAAAA (name : String) (addr : IP) (ttl : Nat) : dns.RR :=
  dns.RR.AAAA
    { Name := dns.Fqdn name, Rrtype := dns.TypeAAAA, Class := dns.ClassINET, Ttl := ttl,
      Rdlength := 16 }
    addr

/-- The function `makeDNSAnswerCNAME`. -/
def makeDNSAnswerCNAME (name : String) (target : String) (ttl : Nat) : dns.RR :=
  dns.RR.CNAME
    { Name := dns.Fqdn name, Rrtype := dns.TypeCNAME, Class := dns.ClassINET, Ttl := ttl,
      Rdlength := 0 }
    (dns.Fqdn target)

/-- The function `makeDNSAnswerHTTPS`. -/
def makeDNSAnswerHTTPS (name : String) (config : dnsHTTPSAnswer) (ttl : Nat) : dns.RR :=
  let v0 : List dns.SVCBKeyValue := []
  let v1 :=
    match config.ALPN with
    | some alpn => v0 ++ [dns.SVCBKeyValue.Alpn alpn]
    | none => v0
  let v2 :=
    match config.IPv4Hint with
    | some hint => v1 ++ [dns.SVCBKeyValue.IPv4Hint hint]
    | none => v1
  let v3 :=
    match config.IPv6Hint with
    | some hint => v2 ++ [dns.SVCBKeyValue.IPv6Hint hint]
    | none => v2
  dns.RR.HTTPS
    { Name := dns.Fqdn name, Rrtype := dns.TypeHTTPS, Class := dns.ClassINET, Ttl := ttl,
      Rdlength := 0 }
    config.Priority (dns.Fqdn config.Target) v3

/-- The function `parseDNSAnswer`. -/
def parseDNSAnswer (L : Lib) (name destination : String) (ttl : Nat) : List dns.RR :=
  match ParseIP L destination with
  | some addr =>
    if addr.length = IPv4len then [makeDNSAnswerA name addr ttl]
    else if addr.length = IPv6len then [makeDNSAnswerAAAA name addr ttl]
    else []
  | none => [makeDNSAnswerCNAME name destination ttl]

/-- The text of the runtime panic on a nil pointer dereference. -/
def nilDereference : String :=
  "runtime error: invalid memory address or nil pointer dereference"

/-- The function `makeDNSAnswer`; `config` is the pointer `*dnsAnswer`, read only in
the four cases of the switch, where a nil pointer panics. -/
def makeDNSAnswer (name : String) (qtype : Nat) (config : Option dnsAnswer) (ttl : Nat) :
    Except String (List dns.RR) :=
  if qtype = dns.TypeA then
    match config with
    | none => .error nilDereference
    | some c =>
      match c.A with
      | some a => .ok [makeDNSAnswerA name a ttl]
      | none => .ok []
  else if qtype = dns.TypeAAAA then
    match config with
    | none => .error nilDereference
    | some c =>
      match c.AAAA with
      | some a => .ok [makeDNSAnswerAAAA name a ttl]
      | none => .ok []
  else if qtype = dns.TypeCNAME then
    match config with
    | none => .error nilDereference
    | some c => if c.CNAME ≠ "" then .ok [makeDNSAnswerCNAME name c.CNAME ttl] else .ok []
  else if qtype = dns.TypeHTTPS then
    match config with
    | none => .error nilDereference
    | some c =>
      match c.HTTPS with
      | some h => .ok [makeDNSAnswerHTTPS name h ttl]
      | none => .ok []
  else .ok []

/-- The match test of the loop body of `Switch` (lines 81 to 100): true when none of
the three `continue` statements is taken for the rule source and the question name. -/
def sourceMatches (L : Lib) (source name : String) : Bool :=
  if hasSlashPrefix source && hasSlashSuffix source then
    match L.regexpCompile (trimSlashes source) with
    | none => false
    | some r => r name
  else !(dns.Fqdn source != name)

/-- The loop of `Switch` over the rules that are left, for the first question. -/
def switchLoop {σ : Type} (L : Lib) (limit : dnsLimiter σ) (addr : IP) (req : dns.Msg)
    (question : dns.Question) :
    List switchConfig → State σ → Except String ((Option dns.Msg × Bool) × State σ)
  | [], st => .ok ((none, false), st)
  | config :: rest, st =>
    if !(sourceMatches L config.Source question.Name) then
      switchLoop L limit addr req question rest st
    else
      let r := limit st.limiter addr config.Source config.MaxCount
      if r.1 then
        .ok ((none, false),
          { limiter := r.2, metrics := st.metrics.IncLimitedDNSRequests })
      else
        let metrics := st.metrics.IncSwitchedDNSRequests L addr
        let resp := dns.Msg.zero.SetReply req
        let answer :=
          if config.Destination ≠ "" then
            .ok (parseDNSAnswer L question.Name config.Destination config.TTL)
          else makeDNSAnswer question.Name question.Qtype config.Answer config.TTL
        match answer with
        | .error e => .error e
        | .ok answer =>
          .ok ((some { resp with Answer := resp.Answer ++ answer }, true),
            { limiter := r.2, metrics := metrics })

/-- The method `Service.Switch`: the response (nil as `none`), the handled flag, and
the limiter and metrics after the call. -/
def Switch {σ : Type} (L : Lib) (limit : dnsLimiter σ) (config : Config) (st : State σ)
    (ctx : Context) (addr : IP) (req : dns.Msg) :
    Except String ((Option dns.Msg × Bool) × State σ) :=
  match UnpackTraceID ctx with
  | .error e => .error e
  | .ok _ =>
    match req.Question with
    | [] => .ok ((none, false), st)
    | question :: _ => switchLoop L limit addr req question config.Settings st

end dnsswitcher

/-! ## dnsresolver -/

namespace dnsresolver

/-- Go constant `modeRandom`. -/
def modeRandom : String := "random"

/-- Go constant `modeRoundRobin`. -/
def modeRoundRobin : String := "round-robin"

/-- The struct `nameserver`. -/
structure nameserver where
  Address : String
  Network : String
deriving DecidableEq, Repr

/-- The struct `dnsresolver.Config`. -/
structure Config where
  Timeout : Int
  Mode : String
  Nameservers : List nameserver
deriving DecidableEq, Repr

/-- The struct `dnsresolver.Service`: the configuration and the round-robin index. -/
structure Service where
  config : Config
  index : Int
deriving DecidableEq, Repr

/-- The constructor `dnsresolver.NewService`: the index starts at its zero value. -/
def NewService (config : Config) : Service :=
  { config := config, index := 0 }

/-- The slice read `xs[i]` with a Go `int` index: a panic outside `0 ≤ i < len(xs)`. -/
def sliceIndex {α : Type} (xs : List α) (i : Int) : Except String α :=
  if i < 0 then .error "runtime error: index out of range"
  else
    match xs[i.toNat]? with
    | some x => .ok x
    | none => .error "runtime error: index out of range"

/-- The method `Service.nameserver`; `draw` is the random source read by
`rand.IntN(n)`, which yields `draw % n` and panics for `n = 0`. -/
def Service.nameserver (s : Service) (draw : Nat) : Except String (nameserver × Service) :=
  if s.config.Mode = modeRandom then
    if s.config.Nameservers.length = 0 then .error "invalid argument to IntN"
    else
      match sliceIndex s.config.Nameservers ((draw % s.config.Nameservers.length : Nat) : Int) with
      | .error e => .error e
      | .ok ns => .ok (ns, s)
  else if s.config.Mode = modeRoundRobin then
    let s1 := if s.index ≥ (s.config.Nameservers.length : Int) then { s with index := 0 } else s
    match sliceIndex s1.config.Nameservers s1.index with
    | .error e => .error e
    | .ok ns => .ok (ns, { s1 with index := s1.index + 1 })
  else .error "resolver mode is not supported"

/-- Sequential calls of `nameserver`, one per element of `draws`; the nameservers
returned in call order and the service after the last call. -/
def nameserverSeq (s : Service) : List Nat → Except String (List nameserver × Service)
  | [] => .ok ([], s)
  | d :: ds =>
    match s.nameserver d with
    | .error e => .error e
    | .ok (ns, s1) =>
      match nameserverSeq s1 ds with
      | .error e => .error e
      | .ok (rest, s2) => .ok (ns :: rest, s2)

/-- The struct `dns.Client`, with the two fields `Lookup` sets. -/
structure Client where
  Net : String
  Timeout : Int
deriving DecidableEq, Repr

/-- The upstream exchange `client.ExchangeContext(ctx, req, address)`: the reply, or
the transport error or timeout. -/
abbrev Exchange := Client → dns.Msg → String → Except String dns.Msg

/-- The method `Service.Lookup`: the response, the service and the metrics after the
call. -/
def Lookup (s : Service) (m : Metrics) (exchange : Exchange) (draw : Nat) (ctx : Context)
    (req : dns.Msg) : Except String (dns.Msg × Service × Metrics) :=
  match UnpackTraceID ctx with
  | .error e => .error e
  | .ok _ =>
    match s.nameserver draw with
    | .error e => .error e
    | .ok (ns, s1) =>
      let client : Client := { Net := ns.Network, Timeout := s1.config.Timeout }
      match exchange client req ns.Address with
      | .error _ =>
        let m1 := m.IncResolvedDNSRequests StatusFailed
        let resp := dns.Msg.zero.SetRcode req dns.RcodeServerFailure
        .ok (resp, s1, m1)
      | .ok resp =>
        if resp.Rcode ≠ dns.RcodeSuccess then
          .ok (resp, s1, m.IncResolvedDNSRequests StatusFailed)
        else .ok (resp, s1, m.IncResolvedDNSRequests StatusSuccess)

end dnsresolver

/-! ## Concrete inputs -/

/-- A library instance for concrete evaluations: addresses print as their bytes in
decimal separated by dots, and neither an IPv6 literal nor a regular expression is
accepted. The inputs evaluated with it contain neither. -/
def plainLib : Lib :=
  { ipString := fun ip => ".".intercalate (ip.map (fun b => toString b.toNat)),
    parseIPv6 := fun _ => none,
    regexpCompile := fun _ => none }

/-- The service `dnslimiter.Service` behind the interface `dnsLimiter`, all calls
made at instant `now`. -/
def limiterAt (L : Lib) (now : Nat) : dnsswitcher.dnsLimiter dnslimiter.Service :=
  fun s addr source maxCount => dnslimiter.Limit L s now addr source maxCount

/-- The client address 192.0.2.5. -/
def clientIP : IP := [192, 0, 2, 5]

/-- A query of type A for `foo.example.`, identifier 7, recursion desired. -/
def queryA : dns.Msg :=
  { dns.Msg.zero with
    Id := 7
    RecursionDesired := true
    Question := [{ Name := "foo.example.", Qtype := dns.TypeA, Qclass := dns.ClassINET }] }

/-- A rule for `foo.example.` with a host name as destination. -/
def ruleCNAME : dnsswitcher.switchConfig :=
  { Source := "foo.example.", Destination := "svc.example.", Answer := none, MaxCount := 0,
    TTL := 60 }

/-- A rule for `foo.example.` without destination, with `answer.a` set to 10.0.0.3. -/
def ruleAnswerA : dnsswitcher.switchConfig :=
  { Source := "foo.example.", Destination := "",
    Answer := some { A := some [10, 0, 0, 3], AAAA := none, CNAME := "", HTTPS := none },
    MaxCount := 0, TTL := 300 }

/-- A rule for `foo.example.` without destination, with `answer.https` only (the HTTPS
rule of the fifth scenario of the specification). -/
def ruleHTTPS : dnsswitcher.switchConfig :=
  { Source := "foo.example.", Destination := "",
    Answer := some
      { A := none, AAAA := none, CNAME := "",
        HTTPS := some
          { Priority := 1, Target := "svc.example.", ALPN := some ["h3", "h2"],
            IPv4Hint := some [[10, 0, 0, 3]], IPv6Hint := none } },
    MaxCount := 0, TTL := 300 }

/-- A rule for `foo.example.` with neither destination nor answer block. -/
def ruleBare : dnsswitcher.switchConfig :=
  { Source := "foo.example.", Destination := "", Answer := none, MaxCount := 0, TTL := 60 }

/-- A switcher state at start: a fresh limiter with ttl 10 and fresh metrics. -/
def state0 : dnsswitcher.State dnslimiter.Service :=
  { limiter := dnslimiter.NewService { TTL := 10 }, metrics := NewMetrics }

/-- A resolver configuration with three nameservers in round-robin mode. -/
def threeServers : dnsresolver.Config :=
  { Timeout := 5, Mode := "round-robin",
    Nameservers :=
      [{ Address := "192.0.2.1:53", Network := "udp" },
       { Address := "192.0.2.2:53", Network := "udp" },
       { Address := "192.0.2.3:53", Network := "tcp" }] }

/-- A resolver configuration whose mode is neither `random` nor `round-robin`. -/
def sequentialMode : dnsresolver.Config :=
  { Timeout := 5, Mode := "sequential",
    Nameservers := [{ Address := "192.0.2.1:53", Network := "udp" }] }

/-- An upstream that never answers: every exchange ends in a timeout. -/
def timeoutExchange : dnsresolver.Exchange :=
  fun _ _ _ => .error "i/o timeout"

/-! ## dnslimiter: theorems -/

namespace dnslimiter

/-- C8. For every client address, source and limiter state, `Limit` with a maximum of
zero returns false and hands back the limiter exactly as it was: no entry is created,
no counter changed and no expiration refreshed. -/
theorem Limit_zero_no_effect (L : Lib) (s : Service) (now : Nat) (addr : IP) (source : String) :
    Limit L s now addr source 0 = (false, s) := by
  simp [Limit]

/-- A write with a non-negative ttl to a key that is in the store is what the next
lookup of the key finds, and the set buffer is left alone. -/
theorem SetWithTTL_update (c : Cache) (now : Nat) (key : String) (v : Value) (cost ttl : Int)
    (it : Item) (h : 0 ≤ ttl) (hl : c.store.lookup key = some it) :
    (c.SetWithTTL now key v cost ttl).store.lookup key =
      some { value := v, cost := cost,
             expiration := if ttl = 0 then none else some (now + ttl.toNat) } ∧
    (c.SetWithTTL now key v cost ttl).setBuf = c.setBuf := by
  have h' : ¬ ttl < 0 := not_lt.mpr h
  simp [Cache.SetWithTTL, h', hl, List.lookup]

/-- An entry that has not expired is what `Get` returns. -/
theorem Get_of_lookup (c : Cache) (now : Nat) (key : String) (it : Item)
    (h : c.store.lookup key = some it) (hexp : ∀ e, it.expiration = some e → now ≤ e) :
    c.Get now key = some it.value := by
  unfold Cache.Get
  rw [h]
  cases he : it.expiration with
  | none => simp [he]
  | some e =>
    have := hexp e he
    simp [he, not_lt.mpr this]

/-- What `Get` returns is the value of the entry the store holds under the key. -/
theorem lookup_of_Get (c : Cache) (now : Nat) (key : String) (v : Value)
    (h : c.Get now key = some v) : ∃ it, c.store.lookup key = some it ∧ it.value = v := by
  unfold Cache.Get at h
  cases hl : c.store.lookup key with
  | none => simp [hl] at h
  | some it =>
    refine ⟨it, rfl, ?_⟩
    simp only [hl] at h
    cases he : it.expiration with
    | none => simpa [he] using h
    | some e =>
      simp only [he] at h
      split_ifs at h
      simpa using h

/-- The worker on an empty set buffer changes nothing. -/
theorem processItems_empty (store : List Entry) (k : Nat) :
    Cache.processItems { store := store, setBuf := [] } k = { store := store, setBuf := [] } := by
  induction k with
  | zero => rfl
  | succ k ih => simpa [Cache.processItems, Cache.processItem] using ih

/-- One worker step keeps the bound: counters in the store stay below `j`, pending
entries of the key hold the counter 0. -/
theorem processItem_bound (c : Cache) (key : String) (j : Int)
    (hs : ∀ it, c.store.lookup key = some it → ∃ v, it.value = Value.int v ∧ v + 1 ≤ j)
    (hb : ∀ e ∈ c.setBuf, e.1 = key → e.2.value = Value.int 0 ∧ 1 ≤ j) :
    (∀ it, c.processItem.store.lookup key = some it → ∃ v, it.value = Value.int v ∧ v + 1 ≤ j) ∧
    (∀ e ∈ c.processItem.setBuf, e.1 = key → e.2.value = Value.int 0 ∧ 1 ≤ j) := by
  unfold Cache.processItem
  cases hbuf : c.setBuf with
  | nil => simp only; exact ⟨hs, by simp [hbuf] at hb ⊢⟩
  | cons e rest =>
    obtain ⟨k, item⟩ := e
    have hrest : ∀ e ∈ rest, e.1 = key → e.2.value = Value.int 0 ∧ 1 ≤ j := by
      intro e he
      exact hb e (by rw [hbuf]; exact List.mem_cons_of_mem _ he)
    have hhead := hb (k, item) (by rw [hbuf]; exact List.mem_cons_self _ _)
    cases hl : c.store.lookup k with
    | some _ => simp only [hl]; exact ⟨hs, hrest⟩
    | none =>
      simp only [hl]
      refine ⟨?_, hrest⟩
      intro it hit
      by_cases hk : key = k
      · subst hk
        simp [List.lookup] at hit
        subst hit
        have := hhead rfl
        exact ⟨0, this.1, by omega⟩
      · have : (key == k) = false := by simpa using hk
        simp [List.lookup, this] at hit
        exact hs it hit

/-- Any number of worker steps keeps the bound. -/
theorem processItems_bound (key : String) (j : Int) (k : Nat) :
    ∀ c : Cache,
      (∀ it, c.store.lookup key = some it → ∃ v, it.value = Value.int v ∧ v + 1 ≤ j) →
      (∀ e ∈ c.setBuf, e.1 = key → e.2.value = Value.int 0 ∧ 1 ≤ j) →
      (∀ it, (c.processItems k).store.lookup key = some it →
        ∃ v, it.value = Value.int v ∧ v + 1 ≤ j) ∧
      (∀ e ∈ (c.processItems k).setBuf, e.1 = key → e.2.value = Value.int 0 ∧ 1 ≤ j) := by
  induction k with
  | zero => intro c hs hb; exact ⟨hs, hb⟩
  | succ k ih =>
    intro c hs hb
    obtain ⟨hs1, hb1⟩ := processItem_bound c key j hs hb
    exact ih c.processItem hs1 hb1

/-- A call of `Limit` while all counters of the key are below `j ≤ n` returns false and
leaves all counters below `j + 1`. -/
theorem Limit_bound (L : Lib) (s : Service) (now : Nat) (addr : IP) (source : String)
    (n j : Int) (h0 : 0 ≤ j) (hj : j ≤ n)
    (hs : ∀ it, s.cache.store.lookup (makeKey L addr source) = some it →
      ∃ v, it.value = Value.int v ∧ v + 1 ≤ j)
    (hb : ∀ e ∈ s.cache.setBuf, e.1 = makeKey L addr source →
      e.2.value = Value.int 0 ∧ 1 ≤ j) :
    (Limit L s now addr source n).1 = false ∧
    (∀ it, (Limit L s now addr source n).2.cache.store.lookup (makeKey L addr source) = some it →
      ∃ v, it.value = Value.int v ∧ v + 1 ≤ j + 1) ∧
    (∀ e ∈ (Limit L s now addr source n).2.cache.setBuf, e.1 = makeKey L addr source →
      e.2.value = Value.int 0 ∧ 1 ≤ j + 1) := by
  have hs' : ∀ it, s.cache.store.lookup (makeKey L addr source) = some it →
      ∃ v, it.value = Value.int v ∧ v + 1 ≤ j + 1 := by
    intro it hit
    obtain ⟨v, hv, hle⟩ := hs it hit
    exact ⟨v, hv, by omega⟩
  have hb' : ∀ e ∈ s.cache.setBuf, e.1 = makeKey L addr source →
      e.2.value = Value.int 0 ∧ 1 ≤ j + 1 := by
    intro e he hk
    exact ⟨(hb e he hk).1, by omega⟩
  -- what a write of the counter `w ≤ j` leaves behind
  have hset : ∀ w : Int, w ≤ j →
      (∀ it, (s.cache.SetWithTTL now (makeKey L addr source) (Value.int w) 1
          s.config.TTL).store.lookup (makeKey L addr source) = some it →
        ∃ v, it.value = Value.int v ∧ v + 1 ≤ j + 1) ∧
      (∀ e ∈ (s.cache.SetWithTTL now (makeKey L addr source) (Value.int w) 1
          s.config.TTL).setBuf, e.1 = makeKey L addr source →
        (w = 0 → e.2.value = Value.int 0 ∧ 1 ≤ j + 1) ∧
        (s.cache.store.lookup (makeKey L addr source) ≠ none →
          e.2.value = Value.int 0 ∧ 1 ≤ j + 1)) := by
    intro w hw
    unfold Cache.SetWithTTL
    by_cases httl : s.config.TTL < 0
    · simp only [httl, if_true]
      exact ⟨hs', fun e he hk => ⟨fun _ => hb' e he hk, fun _ => hb' e he hk⟩⟩
    · simp only [httl, if_false]
      cases hl : s.cache.store.lookup (makeKey L addr source) with
      | some it0 =>
        simp only
        refine ⟨?_, fun e he hk => ⟨fun _ => hb' e he hk, fun _ => hb' e he hk⟩⟩
        intro it hit
        simp [List.lookup] at hit
        subst hit
        exact ⟨w, rfl, by omega⟩
      | none =>
        simp only
        refine ⟨hs', ?_⟩
        intro e he hk
        refine ⟨?_, fun h => absurd rfl h⟩
        intro hw0
        rcases List.mem_append.mp he with he | he
        · exact hb' e he hk
        · simp at he
          subst he
          exact ⟨by simp [hw0], by omega⟩
  unfold Limit
  by_cases hn : n = 0
  · simp only [hn, if_true]
    exact ⟨trivial, hs', hb'⟩
  · simp only [hn, if_false]
    cases hget : s.cache.Get now (makeKey L addr source) with
    | none =>
      simp only
      obtain ⟨h1, h2⟩ := hset 0 h0
      exact ⟨trivial, h1, fun e he hk => (h2 e he hk).1 rfl⟩
    | some value =>
      obtain ⟨it, hit, hval⟩ := lookup_of_Get _ _ _ _ hget
      obtain ⟨v, hv, hle⟩ := hs it hit
      rw [hv] at hval
      subst hval
      have hlt : v < n := by omega
      simp only [hlt, if_true]
      obtain ⟨h1, h2⟩ := hset (v + 1) (by omega)
      exact ⟨trivial, h1, fun e he hk => (h2 e he hk).2 (by rw [hit]; simp)⟩

/-- While all counters of the key are below `j`, the next `n + 1 - j` calls return
false, whatever the worker does in between. -/
theorem LimitSeq_all_false (L : Lib) (addr : IP) (source : String) (n : Int) :
    ∀ (calls : List (Nat × Nat)) (s : Service) (j : Int),
      0 ≤ j → j + calls.length ≤ n + 1 →
      (∀ it, s.cache.store.lookup (makeKey L addr source) = some it →
        ∃ v, it.value = Value.int v ∧ v + 1 ≤ j) →
      (∀ e ∈ s.cache.setBuf, e.1 = makeKey L addr source →
        e.2.value = Value.int 0 ∧ 1 ≤ j) →
      (LimitSeq L s calls addr source n).1 = List.replicate calls.length false := by
  intro calls
  induction calls with
  | nil => intro s j _ _ _ _; rfl
  | cons c cs ih =>
    intro s j h0 hlen hs hb
    obtain ⟨steps, now⟩ := c
    obtain ⟨hs1, hb1⟩ := processItems_bound (makeKey L addr source) j steps s.cache hs hb
    have hlen' : j + 1 + cs.length ≤ n + 1 := by
      simp only [List.length_cons, Nat.cast_add, Nat.cast_one] at hlen
      omega
    obtain ⟨hv, hs2, hb2⟩ := Limit_bound L
      { config := s.config, cache := s.cache.processItems steps } now addr source n j h0
      (by omega) hs1 hb1
    have := ih _ (j + 1) (by omega) hlen' hs2 hb2
    simp only [LimitSeq, hv, this, List.length_cons, List.replicate_succ]

/-- The worker with nothing pending changes nothing. -/
theorem processItems_of_setBuf_nil (k : Nat) :
    ∀ c : Cache, c.setBuf = [] → c.processItems k = c := by
  induction k with
  | zero => intro c _; rfl
  | succ k ih =>
    intro c hc
    have h1 : c.processItem = c := by simp [Cache.processItem, hc]
    simp only [Cache.processItems, h1]
    exact ih c hc

/-- The worker admits the single pending entry of an empty store at its first step. -/
theorem processItems_single (key : String) (item : Item) (k : Nat) :
    Cache.processItems { store := [], setBuf := [(key, item)] } (k + 1) =
      { store := [(key, item)], setBuf := [] } := by
  simp only [Cache.processItems, Cache.processItem, List.lookup]
  exact processItems_of_setBuf_nil k _ rfl

/-- From a live entry with counter `c ≤ n` and nothing pending, calls that are never
further apart than the ttl return false `n - c` times and then true. -/
theorem LimitSeq_counting (L : Lib) (addr : IP) (source : String) (n : Int) (hn : n ≠ 0) :
    ∀ (calls : List (Nat × Nat)) (s : Service) (c : Int) (it : Item),
      0 ≤ s.config.TTL →
      s.cache.setBuf = [] →
      s.cache.store.lookup (makeKey L addr source) = some it →
      it.value = Value.int c →
      c ≤ n →
      (∀ e, it.expiration = some e → ∀ t, (calls.map Prod.snd).head? = some t → t ≤ e) →
      (s.config.TTL = 0 ∨
        List.Chain' (fun a b => b ≤ a + s.config.TTL.toNat) (calls.map Prod.snd)) →
      calls.length = (n - c).toNat + 1 →
      (LimitSeq L s calls addr source n).1 = List.replicate (n - c).toNat false ++ [true] := by
  intro calls
  induction calls with
  | nil => intro s c it _ _ _ _ _ _ _ hlen; simp at hlen
  | cons call rest ih =>
    intro s c it httl hbuf hlook hval hcn hexp hchain hlen
    obtain ⟨steps, t⟩ := call
    have hproc : ({ config := s.config, cache := s.cache.processItems steps } : Service) = s := by
      rw [processItems_of_setBuf_nil steps s.cache hbuf]
    have hget : s.cache.Get t (makeKey L addr source) = some (Value.int c) := by
      rw [Get_of_lookup _ _ _ it hlook (fun e he => hexp e he t rfl), hval]
    rcases lt_or_eq_of_le hcn with hlt | heq
    · -- the counter is below the maximum: the call stores `c + 1` and returns false
      have hstep : Limit L s t addr source n =
          (false, Service.mk s.config (Cache.SetWithTTL s.cache t (makeKey L addr source)
            (Value.int (c + 1)) 1 s.config.TTL)) := by
        simp [Limit, hn, hget, hlt]
      obtain ⟨hl', hb'⟩ := SetWithTTL_update s.cache t (makeKey L addr source)
        (Value.int (c + 1)) 1 s.config.TTL it httl hlook
      have hsub : (n - c).toNat = (n - (c + 1)).toNat + 1 := by omega
      have hrest : rest.length = (n - (c + 1)).toNat + 1 := by
        simp at hlen; omega
      have hih := ih
        (Service.mk s.config (Cache.SetWithTTL s.cache t (makeKey L addr source)
            (Value.int (c + 1)) 1 s.config.TTL))
        (c + 1) _ httl (by rw [hb']; exact hbuf) hl' rfl (by omega)
        (by
          intro e he t' ht'
          rcases hchain with h0 | hch
          · simp [h0] at he
          · by_cases h0 : s.config.TTL = 0
            · simp [h0] at he
            · simp [h0] at he
              cases rest with
              | nil => simp at ht'
              | cons r rs =>
                simp at ht'
                subst ht'
                have := (List.chain'_cons.mp hch).1
                omega)
        (by
          rcases hchain with h0 | hch
          · exact Or.inl h0
          · exact Or.inr (List.Chain'.tail hch))
        hrest
      simp only [LimitSeq, hproc, hstep]
      rw [hih, hsub, List.replicate_succ]
      rfl
    · -- the counter has reached the maximum: the call returns true
      have hstep : Limit L s t addr source n = (true, s) := by
        simp [Limit, hn, hget, heq]
      have h0 : (n - c).toNat = 0 := by omega
      have hrest : rest = [] := by
        simp [h0] at hlen; exact hlen
      subst hrest
      simp [LimitSeq, hproc, hstep, h0]

/-- On a fresh limiter whose first entry is admitted before the second call, with no
expiry in between, the first `n + 1` calls return false and call `n + 2` true. -/
theorem LimitSeq_admitted (L : Lib) (config : Config) (addr : IP) (source : String) (n : Nat)
    (d1 t1 d2 t2 : Nat) (rest : List (Nat × Nat))
    (hn : 1 ≤ n) (httl : 0 ≤ config.TTL) (hd : 1 ≤ d2)
    (hchain : config.TTL = 0 ∨
      List.Chain' (fun a b => b ≤ a + config.TTL.toNat) (t1 :: t2 :: rest.map Prod.snd))
    (hlen : rest.length = n) :
    (LimitSeq L (NewService config) ((d1, t1) :: (d2, t2) :: rest) addr source (n : Int)).1 =
      List.replicate (n + 1) false ++ [true] := by
  have hn0 : (n : Int) ≠ 0 := by omega
  have httl' : ¬ config.TTL < 0 := not_lt.mpr httl
  obtain ⟨k, rfl⟩ : ∃ k, d2 = k + 1 := ⟨d2 - 1, by omega⟩
  have hp1 : ({ config := (NewService config).config,
                cache := (NewService config).cache.processItems d1 } : Service) =
      NewService config := by
    rw [processItems_of_setBuf_nil d1 _ rfl]
  have hstep : Limit L (NewService config) t1 addr source (n : Int) =
      (false, Service.mk config
        { store := [],
          setBuf := [(makeKey L addr source,
            { value := Value.int 0, cost := 1,
              expiration := if config.TTL = 0 then none else some (t1 + config.TTL.toNat) })] }) := by
    simp [Limit, hn0, NewService, Cache.Get, Cache.SetWithTTL, httl', List.lookup]
  have h := LimitSeq_counting L addr source (n : Int) hn0 ((0, t2) :: rest)
    (Service.mk config
      { store := [(makeKey L addr source,
          { value := Value.int 0, cost := 1,
            expiration := if config.TTL = 0 then none else some (t1 + config.TTL.toNat) })],
        setBuf := [] })
    0
    { value := Value.int 0, cost := 1,
      expiration := if config.TTL = 0 then none else some (t1 + config.TTL.toNat) }
    httl rfl (by simp [List.lookup]) rfl (by omega)
    (by
      intro e he t' ht'
      rcases hchain with h0 | hch
      · simp [h0] at he
      · by_cases h0 : config.TTL = 0
        · simp [h0] at he
        · simp [h0] at he
          simp at ht'
          subst ht'
          have := (List.chain'_cons.mp hch).1
          omega)
    (by
      rcases hchain with h0 | hch
      · exact Or.inl h0
      · exact Or.inr (by simpa using List.Chain'.tail hch))
    (by simp [hlen])
  have hsame :
      (LimitSeq L (Service.mk config
        { store := [],
          setBuf := [(makeKey L addr source,
            { value := Value.int 0, cost := 1,
              expiration := if config.TTL = 0 then none else some (t1 + config.TTL.toNat) })] })
        ((k + 1, t2) :: rest) addr source (n : Int)) =
      (LimitSeq L (Service.mk config
        { store := [(makeKey L addr source,
            { value := Value.int 0, cost := 1,
              expiration := if config.TTL = 0 then none else some (t1 + config.TTL.toNat) })],
          setBuf := [] })
        ((0, t2) :: rest) addr source (n : Int)) := by
    simp only [LimitSeq, processItems_single]
    rfl
  rw [LimitSeq]
  simp only [hp1, hstep]
  rw [hsame, h]
  simp [List.replicate_succ]

/-- C1 (amended). On a fresh limiter, for every `n ≥ 1`, client address and source,
sequential calls `Limit(ip, source, n)` return false on each of the first `n + 1`
calls, at whatever instants they are made and however far the cache's worker has
got with admitting the entry; and when the entry of the first call is admitted
before the second call and nothing expires in between (a non-negative ttl,
consecutive calls never further apart than it), call `n + 2` returns true. The first
call stores the counter 0, so call `n + 1` is never limited. -/
theorem LimitSeq_fresh (L : Lib) (config : Config) (addr : IP) (source : String) (n : Nat)
    (hn : 1 ≤ n) :
    (∀ calls : List (Nat × Nat), calls.length = n + 1 →
      (LimitSeq L (NewService config) calls addr source (n : Int)).1 =
        List.replicate (n + 1) false) ∧
    (∀ (d1 t1 d2 t2 : Nat) (rest : List (Nat × Nat)),
      0 ≤ config.TTL → 1 ≤ d2 →
      (config.TTL = 0 ∨
        List.Chain' (fun a b => b ≤ a + config.TTL.toNat) (t1 :: t2 :: rest.map Prod.snd)) →
      rest.length = n →
      (LimitSeq L (NewService config) ((d1, t1) :: (d2, t2) :: rest) addr source (n : Int)).1 =
        List.replicate (n + 1) false ++ [true]) := by
  constructor
  · intro calls hlen
    have h := LimitSeq_all_false L addr source (n : Int) calls (NewService config) 0
      (le_refl _) (by rw [hlen]; push_cast; omega)
      (by intro it hit; simp [NewService] at hit)
      (by intro e he; simp [NewService] at he)
    rw [h, hlen]
  · intro d1 t1 d2 t2 rest httl hd hchain hlen
    exact LimitSeq_admitted L config addr source n d1 t1 d2 t2 rest hn httl hd hchain hlen

/-- Witness for C1 (amended) at maximum 1: two calls return false whether or not the
worker has run; with the entry admitted before the second call the third call is
limited. -/
theorem LimitSeq_fresh_witness :
    (LimitSeq plainLib (NewService { TTL := 10 }) [(0, 0), (0, 1)] clientIP "x.test."
      ((1 : Nat) : Int)).1 = [false, false] ∧
    (LimitSeq plainLib (NewService { TTL := 10 }) [(0, 0), (1, 3), (0, 6)] clientIP "x.test."
      ((1 : Nat) : Int)).1 = [false, false, true] :=
  ⟨(LimitSeq_fresh plainLib { TTL := 10 } clientIP "x.test." 1 (le_refl 1)).1
      [(0, 0), (0, 1)] rfl,
    (LimitSeq_fresh plainLib { TTL := 10 } clientIP "x.test." 1 (le_refl 1)).2
      0 0 1 3 [(0, 6)] (by decide) (le_refl 1) (Or.inr (by simp)) rfl⟩

/-- Counterexample to C1 as stated, at the third scenario of the specification
(maximum 2, client 192.0.2.5, source `x.test.`): the third call returns false, both
when the first entry is admitted before the second call and when the four calls are
made back to back before the worker has run, in which case the fourth passes too. -/
theorem Limit_third_call_counterexample :
    (LimitSeq plainLib (NewService { TTL := 10 }) [(0, 0), (1, 0), (0, 0), (0, 0)] clientIP
      "x.test." 2).1 = [false, false, false, true] ∧
    (LimitSeq plainLib (NewService { TTL := 10 }) [(0, 0), (0, 0), (0, 0), (0, 0)] clientIP
      "x.test." 2).1 = [false, false, false, false] := by
  decide

end dnslimiter

/-! ## Address parsing: theorems -/

/-- A decimal digit is none of the characters that select an address grammar. -/
theorem digit_not_selector (c : Char) (hd : '0' ≤ c ∧ c ≤ '9') :
    (c == '.' || c == ':' || c == '%') = false ∧ c ≠ '.' := by
  rcases hd with ⟨h0, h9⟩
  have e1 : c ≠ '.' := by rintro rfl; exact absurd h0 (by decide)
  have e2 : c ≠ ':' := by rintro rfl; exact absurd h9 (by decide)
  have e3 : c ≠ '%' := by rintro rfl; exact absurd h0 (by decide)
  simp [e1, e2, e3]

/-- A successful IPv4 parse met a dot before any colon or percent sign, unless three
dots had been consumed before. -/
theorem parseIPv4Loop_find (cs : List Char) :
    ∀ (first prevDot : Bool) (val pos digLen : Nat) (fields b : List UInt8),
      parseIPv4Loop cs first prevDot val pos digLen fields = some b →
      cs.find? (fun c => c == '.' || c == ':' || c == '%') = some '.' ∨ 3 ≤ pos := by
  induction cs with
  | nil =>
    intro first prevDot val pos digLen fields b h
    right
    by_contra hlt
    simp [parseIPv4Loop, not_le.mp hlt] at h
  | cons c rest ih =>
    intro first prevDot val pos digLen fields b h
    unfold parseIPv4Loop at h
    by_cases hd : '0' ≤ c ∧ c ≤ '9'
    · rw [if_pos hd] at h
      rw [List.find?_cons_of_neg _ (by simp [(digit_not_selector c hd).1])]
      by_cases h1 : digLen = 1 ∧ val = 0
      · rw [if_pos h1] at h; simp at h
      · rw [if_neg h1] at h
        simp only at h
        by_cases h2 : val * 10 + (c.toNat - '0'.toNat) > 255
        · rw [if_pos h2] at h; simp at h
        · rw [if_neg h2] at h
          exact ih _ _ _ _ _ _ _ h
    · rw [if_neg hd] at h
      by_cases hdot : c = '.'
      · left
        subst hdot
        simp
      · rw [if_neg hdot] at h
        simp at h

/-- The octets stored by the IPv4 loop: a successful parse returns four of them. -/
theorem parseIPv4Loop_length (cs : List Char) :
    ∀ (first prevDot : Bool) (val pos digLen : Nat) (fields b : List UInt8),
      fields.length = pos → pos ≤ 3 →
      parseIPv4Loop cs first prevDot val pos digLen fields = some b →
      b.length = 4 := by
  induction cs with
  | nil =>
    intro first prevDot val pos digLen fields b hlen hpos h
    unfold parseIPv4Loop at h
    by_cases hlt : pos < 3
    · rw [if_pos hlt] at h; simp at h
    · rw [if_neg hlt] at h
      simp at h
      subst h
      simp
      omega
  | cons c rest ih =>
    intro first prevDot val pos digLen fields b hlen hpos h
    unfold parseIPv4Loop at h
    by_cases hd : '0' ≤ c ∧ c ≤ '9'
    · rw [if_pos hd] at h
      by_cases h1 : digLen = 1 ∧ val = 0
      · rw [if_pos h1] at h; simp at h
      · rw [if_neg h1] at h
        simp only at h
        by_cases h2 : val * 10 + (c.toNat - '0'.toNat) > 255
        · rw [if_pos h2] at h; simp at h
        · rw [if_neg h2] at h
          exact ih _ _ _ _ _ _ _ hlen hpos h
    · rw [if_neg hd] at h
      by_cases hdot : c = '.'
      · rw [if_pos hdot] at h
        by_cases h3 : (first = true ∨ rest = [] ∨ prevDot = true)
        · rw [if_pos h3] at h; simp at h
        · rw [if_neg h3] at h
          by_cases h4 : pos = 3
          · rw [if_pos h4] at h; simp at h
          · rw [if_neg h4] at h
            exact ih _ _ _ _ _ _ _ (by simp [hlen]) (by omega) h
      · rw [if_neg hdot] at h
        simp at h

/-- The result of `net.ParseIP` is nil or 16 bytes long. -/
theorem ParseIP_length (L : Lib) (s : String) (addr : IP) (h : ParseIP L s = some addr) :
    addr.length = 16 := by
  unfold ParseIP at h
  split at h
  · rename_i c _
    by_cases h1 : c = '.'
    · rw [if_pos h1] at h
      cases hp : parseIPv4 s with
      | none => simp [hp] at h
      | some b =>
        simp [hp] at h
        subst h
        have := parseIPv4Loop_length s.toList true false 0 0 0 [] b rfl (by omega) hp
        simp [v4InV6, this]
    · rw [if_neg h1] at h
      by_cases h2 : c = ':'
      · rw [if_pos h2] at h
        cases hp : L.parseIPv6 s with
        | none => simp [hp] at h
        | some b =>
          simp [hp] at h
          subst h
          exact b.property
      · rw [if_neg h2] at h
        simp at h
  · simp at h

/-- For an IPv4 literal `net.ParseIP` returns the 16-byte form of the address. -/
theorem ParseIP_of_parseIPv4 (L : Lib) (s : String) (b : List UInt8)
    (h : parseIPv4 s = some b) : ParseIP L s = some (v4InV6 b) := by
  have hf := parseIPv4Loop_find s.toList true false 0 0 0 [] b h
  rcases hf with hf | hf
  · unfold ParseIP
    rw [hf]
    simp [h]
  · omega

/-! ## dnsswitcher: theorems -/

namespace dnsswitcher

/-- C2 (the code builds the wrong record). For every destination that is an IPv4
literal, every question name and ttl, and whatever the query type, `parseDNSAnswer`
returns exactly one record, and it is an AAAA record carrying the 16-byte form
`::ffff:a.b.c.d` of the address: `net.ParseIP` always returns 16 bytes, so the case
`net.IPv4len` that builds the A record is never taken. -/
theorem parseDNSAnswer_IPv4_literal (L : Lib) (name destination : String) (ttl : Nat)
    (b : List UInt8) (h : parseIPv4 destination = some b) :
    parseDNSAnswer L name destination ttl = [makeDNSAnswerAAAA name (v4InV6 b) ttl] := by
  have hlen : (v4InV6 b).length = 16 :=
    ParseIP_length L destination _ (ParseIP_of_parseIPv4 L _ _ h)
  unfold parseDNSAnswer
  rw [ParseIP_of_parseIPv4 L _ _ h]
  simp [hlen, IPv4len, IPv6len]

/-- Witness for C2 at the first scenario of the specification: destination
`10.0.0.1`, question `foo.example.`, ttl 60. -/
theorem parseDNSAnswer_IPv4_literal_witness :
    parseIPv4 "10.0.0.1" = some [10, 0, 0, 1] ∧
    parseDNSAnswer plainLib "foo.example." "10.0.0.1" 60 =
      [dns.RR.AAAA
        { Name := "foo.example.", Rrtype := 28, Class := 1, Ttl := 60, Rdlength := 16 }
        [0, 0, 0, 0, 0, 0, 0, 0, 0, 0, 255, 255, 10, 0, 0, 1]] := by
  have hp : parseIPv4 "10.0.0.1" = some [10, 0, 0, 1] := by decide
  refine ⟨hp, ?_⟩
  rw [parseDNSAnswer_IPv4_literal plainLib "foo.example." "10.0.0.1" 60 _ hp]
  decide

/-- A reply set on the zero message has an empty answer section. -/
theorem SetReply_zero_Answer (req : dns.Msg) : (dns.Msg.zero.SetReply req).Answer = [] := by
  unfold dns.Msg.SetReply
  cases req.Question <;> simp <;> split <;> rfl

/-- Every record `makeDNSAnswer` returns has the queried type, the given ttl and the
FQDN form of the name as owner. -/
theorem makeDNSAnswer_header (name : String) (qtype : Nat) (config : Option dnsAnswer)
    (ttl : Nat) (answers : List dns.RR)
    (h : makeDNSAnswer name qtype config ttl = .ok answers) :
    ∀ rr ∈ answers,
      rr.Header.Rrtype = qtype ∧ rr.Header.Ttl = ttl ∧ rr.Header.Name = dns.Fqdn name := by
  unfold makeDNSAnswer at h
  intro rr hrr
  split_ifs at h with h1 h2 h3 h4
  · cases config with
    | none => simp at h
    | some c =>
      cases hA : c.A with
      | none => simp [hA] at h; subst h; simp at hrr
      | some a =>
        simp [hA] at h; subst h; simp at hrr; subst hrr
        simp [makeDNSAnswerA, dns.RR.Header, h1]
  · cases config with
    | none => simp at h
    | some c =>
      cases hA : c.AAAA with
      | none => simp [hA] at h; subst h; simp at hrr
      | some a =>
        simp [hA] at h; subst h; simp at hrr; subst hrr
        simp [makeDNSAnswerAAAA, dns.RR.Header, h2]
  · cases config with
    | none => simp at h
    | some c =>
      by_cases hC : c.CNAME = ""
      · simp [hC] at h; subst h; simp at hrr
      · simp [hC] at h; subst h; simp at hrr; subst hrr
        simp [makeDNSAnswerCNAME, dns.RR.Header, h3]
  · cases config with
    | none => simp at h
    | some c =>
      cases hA : c.HTTPS with
      | none => simp [hA] at h; subst h; simp at hrr
      | some a =>
        simp [hA] at h; subst h; simp at hrr; subst hrr
        simp [makeDNSAnswerHTTPS, dns.RR.Header, h4]
  · simp at h; subst h; simp at hrr

/-- Every record `parseDNSAnswer` returns has the given ttl and the FQDN form of the
name as owner. -/
theorem parseDNSAnswer_header (L : Lib) (name destination : String) (ttl : Nat) :
    ∀ rr ∈ parseDNSAnswer L name destination ttl,
      rr.Header.Ttl = ttl ∧ rr.Header.Name = dns.Fqdn name := by
  intro rr hrr
  unfold parseDNSAnswer at hrr
  cases hp : ParseIP L destination with
  | none =>
    simp [hp] at hrr; subst hrr
    simp [makeDNSAnswerCNAME, dns.RR.Header]
  | some addr =>
    simp only [hp] at hrr
    split_ifs at hrr
    · simp at hrr; subst hrr; simp [makeDNSAnswerA, dns.RR.Header]
    · simp at hrr; subst hrr; simp [makeDNSAnswerAAAA, dns.RR.Header]
    · simp at hrr

/-- The loop of `Switch`, when every matching rule has an empty destination: the answer
records have the queried type. -/
theorem switchLoop_answer_types {σ : Type} (L : Lib) (limit : dnsLimiter σ) (addr : IP)
    (req : dns.Msg) (q : dns.Question) (rules : List switchConfig) :
    ∀ (st : State σ) (resp : dns.Msg) (st' : State σ),
      (∀ c ∈ rules, sourceMatches L c.Source q.Name = true → c.Destination = "") →
      switchLoop L limit addr req q rules st = .ok ((some resp, true), st') →
      ∀ rr ∈ resp.Answer, rr.Header.Rrtype = q.Qtype := by
  induction rules with
  | nil =>
    intro st resp st' _ h
    simp [switchLoop] at h
  | cons c rest ih =>
    intro st resp st' hdest h
    unfold switchLoop at h
    by_cases hm : sourceMatches L c.Source q.Name = true
    · have hd : c.Destination = "" := hdest c (List.mem_cons_self _ _) hm
      simp only [hm, Bool.not_true, Bool.false_eq_true, if_false] at h
      by_cases hl : (limit st.limiter addr c.Source c.MaxCount).1 = true
      · simp [hl] at h
      · simp only [hl, if_false, hd, ne_eq, not_true_eq_false] at h
        cases hans : makeDNSAnswer q.Name q.Qtype c.Answer c.TTL with
        | error e => simp [hans] at h
        | ok answer =>
          simp only [hans] at h
          simp at h
          rcases h with ⟨hresp, _⟩
          subst hresp
          intro rr hrr
          simp [SetReply_zero_Answer] at hrr
          exact (makeDNSAnswer_header _ _ _ _ _ hans rr hrr).1
    · simp only [hm, Bool.not_false, if_true] at h
      exact ih st resp st' (fun c' hc' => hdest c' (List.mem_cons_of_mem _ hc')) h


/-- A rule that does not match is skipped by the loop. -/
theorem switchLoop_cons_no_match {σ : Type} (L : Lib) (limit : dnsLimiter σ) (addr : IP)
    (req : dns.Msg) (q : dns.Question) (c : switchConfig) (rest : List switchConfig)
    (st : State σ) (hm : sourceMatches L c.Source q.Name = false) :
    switchLoop L limit addr req q (c :: rest) st = switchLoop L limit addr req q rest st := by
  rw [switchLoop]
  simp [hm]

/-- A rule that matches ends the loop: the rules after it play no part. -/
theorem switchLoop_cons_match {σ : Type} (L : Lib) (limit : dnsLimiter σ) (addr : IP)
    (req : dns.Msg) (q : dns.Question) (c : switchConfig) (rest : List switchConfig)
    (st : State σ) (hm : sourceMatches L c.Source q.Name = true) :
    switchLoop L limit addr req q (c :: rest) st = switchLoop L limit addr req q [c] st := by
  rw [switchLoop, switchLoop]
  simp [hm]

/-- The loop over rules of which the first matching one is `r`. -/
theorem switchLoop_first_match {σ : Type} (L : Lib) (limit : dnsLimiter σ) (addr : IP)
    (req : dns.Msg) (q : dns.Question) (r : switchConfig) (post : List switchConfig)
    (st : State σ) (hr : sourceMatches L r.Source q.Name = true) :
    ∀ pre : List switchConfig,
      (∀ c ∈ pre, sourceMatches L c.Source q.Name = false) →
      switchLoop L limit addr req q (pre ++ r :: post) st =
        switchLoop L limit addr req q [r] st := by
  intro pre
  induction pre with
  | nil => intro _; exact switchLoop_cons_match L limit addr req q r post st hr
  | cons c rest ih =>
    intro hpre
    rw [List.cons_append, switchLoop_cons_no_match L limit addr req q c _ st
      (hpre c (List.mem_cons_self _ _))]
    exact ih (fun c' hc' => hpre c' (List.mem_cons_of_mem _ hc'))

/-- C4. In a rule list whose first matching rule is `r` (no rule before it matches the
question), `Switch` returns what `r` alone determines, for every limiter and limiter
state: the limiter is consulted once, for `r`; when it limits, the result is
`(nil, false)` with the limited counter incremented; otherwise it is `(reply, true)`
where the answer section is the answer set of `r` (from its destination, else from
its answer block) and the switched counter is incremented. The rules after `r` play
no part: for every context the result is that of the list `[r]`. -/
theorem Switch_first_match {σ : Type} (L : Lib) (limit : dnsLimiter σ) (st : State σ)
    (traceID : String) (addr : IP) (req : dns.Msg) (q : dns.Question)
    (pre : List switchConfig) (r : switchConfig) (post : List switchConfig)
    (hq : req.Question.head? = some q)
    (hpre : ∀ c ∈ pre, sourceMatches L c.Source q.Name = false)
    (hr : sourceMatches L r.Source q.Name = true) :
    Switch L limit { Settings := pre ++ r :: post } st (some traceID) addr req =
      (if (limit st.limiter addr r.Source r.MaxCount).1 = true then
        .ok ((none, false),
          { limiter := (limit st.limiter addr r.Source r.MaxCount).2,
            metrics := st.metrics.IncLimitedDNSRequests })
      else
        match (if r.Destination ≠ "" then
            Except.ok (parseDNSAnswer L q.Name r.Destination r.TTL)
          else makeDNSAnswer q.Name q.Qtype r.Answer r.TTL) with
        | .error e => .error e
        | .ok answer =>
          .ok ((some { dns.Msg.zero.SetReply req with Answer := answer }, true),
            { limiter := (limit st.limiter addr r.Source r.MaxCount).2,
              metrics := st.metrics.IncSwitchedDNSRequests L addr })) ∧
    ∀ ctx : Context,
      Switch L limit { Settings := pre ++ r :: post } st ctx addr req =
        Switch L limit { Settings := [r] } st ctx addr req := by
  cases hQ : req.Question with
  | nil => simp [hQ] at hq
  | cons q' qs =>
    simp [hQ] at hq
    subst hq
    constructor
    · unfold Switch
      simp only [UnpackTraceID, hQ]
      rw [switchLoop_first_match L limit addr req q' r post st hr pre hpre, switchLoop,
        switchLoop]
      simp only [hr, Bool.not_true, Bool.false_eq_true, if_false, SetReply_zero_Answer,
        List.nil_append]
    · intro ctx
      unfold Switch
      cases UnpackTraceID ctx with
      | error e => rfl
      | ok t =>
        simp only [hQ]
        exact switchLoop_first_match L limit addr req q' r post st hr pre hpre

/-- C5 (amended). A rule whose source is not of the form `/regex/` matches a question name
exactly when the FQDN form of the source is that name, character for character;
letter case is significant. -/
theorem sourceMatches_literal (L : Lib) (source name : String)
    (hlit : ¬ (hasSlashPrefix source = true ∧ hasSlashSuffix source = true)) :
    sourceMatches L source name = true ↔ dns.Fqdn source = name := by
  unfold sourceMatches
  have : (hasSlashPrefix source && hasSlashSuffix source) = false := by
    simpa using hlit
  simp [this]


/-- C10 (amended). Every record built from a destination has the rule's ttl and the FQDN
form of the question name as owner, and an AAAA record among them has a 16-byte
address. Every record built from the answer block has the rule's ttl and that owner;
an A record carries `answer.a` unchanged under a header with Rdlength 4 and an AAAA
record carries `answer.aaaa` unchanged under a header with Rdlength 16, so the address
is as long as the configured one.
The length of an A record built from a destination is not part of the statement. -/
theorem switcher_record_fields (L : Lib) (name destination : String) (qtype : Nat)
    (config : Option dnsAnswer) (ttl : Nat) :
    (∀ rr ∈ parseDNSAnswer L name destination ttl,
      rr.Header.Ttl = ttl ∧ rr.Header.Name = dns.Fqdn name ∧
      ∀ hdr a, rr = dns.RR.AAAA hdr a → a.length = 16) ∧
    (∀ answers, makeDNSAnswer name qtype config ttl = .ok answers → ∀ rr ∈ answers,
      rr.Header.Ttl = ttl ∧ rr.Header.Name = dns.Fqdn name ∧
      (∀ hdr a, rr = dns.RR.A hdr a →
        hdr.Rdlength = 4 ∧ ∃ c, config = some c ∧ c.A = some a) ∧
      (∀ hdr a, rr = dns.RR.AAAA hdr a →
        hdr.Rdlength = 16 ∧ ∃ c, config = some c ∧ c.AAAA = some a)) := by
  constructor
  · intro rr hrr
    unfold parseDNSAnswer at hrr
    cases hp : ParseIP L destination with
    | none =>
      simp [hp] at hrr; subst hrr
      simp [makeDNSAnswerCNAME, dns.RR.Header]
    | some addr =>
      have hlen := ParseIP_length L destination addr hp
      simp only [hp] at hrr
      split_ifs at hrr
      · simp at hrr; subst hrr
        simp [makeDNSAnswerA, dns.RR.Header]
      · simp at hrr; subst hrr
        simp only [makeDNSAnswerAAAA, dns.RR.Header, true_and]
        intro hdr a he
        injection he with _ ha
        rw [← ha]; exact hlen
      · simp at hrr
  · intro answers h rr hrr
    unfold makeDNSAnswer at h
    split_ifs at h with h1 h2 h3 h4
    · cases config with
      | none => simp at h
      | some c =>
        cases hA : c.A with
        | none => simp [hA] at h; subst h; simp at hrr
        | some a =>
          simp [hA] at h; subst h; simp at hrr; subst hrr
          simp [makeDNSAnswerA, dns.RR.Header, hA]
    · cases config with
      | none => simp at h
      | some c =>
        cases hA : c.AAAA with
        | none => simp [hA] at h; subst h; simp at hrr
        | some a =>
          simp [hA] at h; subst h; simp at hrr; subst hrr
          simp [makeDNSAnswerAAAA, dns.RR.Header, hA]
    · cases config with
      | none => simp at h
      | some c =>
        by_cases hC : c.CNAME = ""
        · simp [hC] at h; subst h; simp at hrr
        · simp [hC] at h; subst h; simp at hrr; subst hrr
          simp [makeDNSAnswerCNAME, dns.RR.Header]
    · cases config with
      | none => simp at h
      | some c =>
        cases hA : c.HTTPS with
        | none => simp [hA] at h; subst h; simp at hrr
        | some a =>
          simp [hA] at h; subst h; simp at hrr; subst hrr
          simp [makeDNSAnswerHTTPS, dns.RR.Header]
    · simp at h; subst h; simp at hrr

/-- Counterexample to C10 as stated: with `answer.a` holding the 16-byte form of
10.0.0.1 (what `net.ParseIP` yields for that text), the A record built for a type A
query carries a 16-byte address under a header with Rdlength 4. -/
theorem makeDNSAnswer_A_length_counterexample :
    makeDNSAnswer "foo.example." dns.TypeA
        (some { A := some [0, 0, 0, 0, 0, 0, 0, 0, 0, 0, 255, 255, 10, 0, 0, 1], AAAA := none,
                CNAME := "", HTTPS := none }) 60 =
      .ok [dns.RR.A
        { Name := "foo.example.", Rrtype := 1, Class := 1, Ttl := 60, Rdlength := 4 }
        [0, 0, 0, 0, 0, 0, 0, 0, 0, 0, 255, 255, 10, 0, 0, 1]] ∧
    ([0, 0, 0, 0, 0, 0, 0, 0, 0, 0, 255, 255, 10, 0, 0, 1] : IP).length ≠ 4 := by
  constructor
  · rfl
  · decide


/-- Counterexample to C3 as stated: the rule `foo.example.` with destination
`svc.example.` answers a query of type A (1) with handled=true and one CNAME record
(type 5); the destination path never looks at the query type. -/
theorem Switch_answer_type_counterexample :
    (queryA.Question.map (fun q => q.Qtype) = [dns.TypeA]) ∧
    ∃ st', Switch plainLib (limiterAt plainLib 0) { Settings := [ruleCNAME] } state0
        (some "trace") clientIP queryA =
      .ok ((some
        { dns.Msg.zero with
          Id := 7
          Response := true
          RecursionDesired := true
          Question := [{ Name := "foo.example.", Qtype := 1, Qclass := 1 }]
          Answer :=
            [dns.RR.CNAME
              { Name := "foo.example.", Rrtype := 5, Class := 1, Ttl := 60, Rdlength := 0 }
              "svc.example."] }, true), st') :=
  ⟨rfl, _, rfl⟩

/-- C3 (amended). When `Switch` returns handled=true through a rule without destination
(the first rule that matches the question has an empty `destination`, so its answer
block is used), every record of the response's answer section has the type of the
request's first question. -/
theorem Switch_answer_block_types {σ : Type} (L : Lib) (limit : dnsLimiter σ)
    (st st' : State σ) (ctx : Context) (addr : IP) (req resp : dns.Msg) (q : dns.Question)
    (pre : List switchConfig) (r : switchConfig) (post : List switchConfig)
    (hq : req.Question.head? = some q)
    (hpre : ∀ c ∈ pre, sourceMatches L c.Source q.Name = false)
    (hr : sourceMatches L r.Source q.Name = true)
    (hd : r.Destination = "")
    (h : Switch L limit { Settings := pre ++ r :: post } st ctx addr req =
      .ok ((some resp, true), st')) :
    ∀ rr ∈ resp.Answer, rr.Header.Rrtype = q.Qtype := by
  unfold Switch at h
  cases hU : UnpackTraceID ctx with
  | error e => simp [hU] at h
  | ok t =>
    cases hQ : req.Question with
    | nil => simp [hU, hQ] at h
    | cons q' qs =>
      simp [hQ] at hq
      subst hq
      simp only [hU, hQ] at h
      rw [switchLoop_first_match L limit addr req q' r post st hr pre hpre] at h
      refine switchLoop_answer_types L limit addr req q' [r] st resp st' ?_ h
      intro c hc _
      simp at hc
      subst hc
      exact hd

/-- Witness for C3 (amended): the rule with `answer.a` placed before a destination rule
for the same name answers the type A query with one record of type A. -/
theorem Switch_answer_block_types_witness :
    (dns.RR.A { Name := "foo.example.", Rrtype := 1, Class := 1, Ttl := 300, Rdlength := 4 }
      [10, 0, 0, 3]).Header.Rrtype = dns.TypeA :=
  Switch_answer_block_types plainLib (limiterAt plainLib 0) state0
    { limiter := dnslimiter.NewService { TTL := 10 },
      metrics := NewMetrics.IncSwitchedDNSRequests plainLib clientIP }
    (some "trace") clientIP queryA
    { dns.Msg.zero with
      Id := 7
      Response := true
      RecursionDesired := true
      Question := [{ Name := "foo.example.", Qtype := 1, Qclass := 1 }]
      Answer :=
        [dns.RR.A
          { Name := "foo.example.", Rrtype := 1, Class := 1, Ttl := 300, Rdlength := 4 }
          [10, 0, 0, 3]] }
    { Name := "foo.example.", Qtype := dns.TypeA, Qclass := dns.ClassINET }
    [] ruleAnswerA [ruleCNAME] rfl (by simp) (by decide) rfl rfl _ (by simp)

/-- Witness for C4: two rules that both match `foo.example.`; the response is the CNAME
answer of the first one and the limiter is left as it was for that rule. -/
theorem Switch_first_match_witness :
    sourceMatches plainLib ruleCNAME.Source "foo.example." = true ∧
    sourceMatches plainLib ruleAnswerA.Source "foo.example." = true ∧
    Switch plainLib (limiterAt plainLib 0) { Settings := [] ++ ruleCNAME :: [ruleAnswerA] }
        state0 (some "trace") clientIP queryA =
      .ok ((some
        { dns.Msg.zero with
          Id := 7
          Response := true
          RecursionDesired := true
          Question := [{ Name := "foo.example.", Qtype := 1, Qclass := 1 }]
          Answer :=
            [dns.RR.CNAME
              { Name := "foo.example.", Rrtype := 5, Class := 1, Ttl := 60, Rdlength := 0 }
              "svc.example."] }, true),
        { limiter := dnslimiter.NewService { TTL := 10 },
          metrics := NewMetrics.IncSwitchedDNSRequests plainLib clientIP }) :=
  ⟨by decide, by decide,
    (Switch_first_match plainLib (limiterAt plainLib 0) state0 "trace" clientIP queryA
      { Name := "foo.example.", Qtype := dns.TypeA, Qclass := dns.ClassINET }
      [] ruleCNAME [ruleAnswerA] rfl (by simp) (by decide)).1.trans rfl⟩

/-- Counterexample to C5 as stated: the source `Example.COM` is not a regular
expression and its FQDN form equals `example.com.` up to letter case, yet the rule
does not match the question name `example.com.`: the comparison is exact. -/
theorem sourceMatches_case_counterexample :
    (hasSlashPrefix "Example.COM" && hasSlashSuffix "Example.COM") = false ∧
    (dns.Fqdn "Example.COM").toList.map Char.toLower =
      "example.com.".toList.map Char.toLower ∧
    sourceMatches plainLib "Example.COM" "example.com." = false := by
  decide

/-- Witness for C5 (amended): the source `Example.COM` matches the name `Example.COM.`. -/
theorem sourceMatches_literal_witness :
    ¬ (hasSlashPrefix "Example.COM" = true ∧ hasSlashSuffix "Example.COM" = true) ∧
    (sourceMatches plainLib "Example.COM" "Example.COM." = true ↔
      dns.Fqdn "Example.COM" = "Example.COM.") :=
  ⟨by decide, sourceMatches_literal plainLib "Example.COM" "Example.COM." (by decide)⟩

/-- Instance of C10 (amended): the A record built from `answer.a` of the rule
`ruleAnswerA` has the ttl passed in. -/
theorem switcher_record_fields_witness :
    (dns.RR.A { Name := "foo.example.", Rrtype := 1, Class := 1, Ttl := 300, Rdlength := 4 }
      [10, 0, 0, 3]).Header.Ttl = 300 :=
  ((switcher_record_fields plainLib "foo.example." "" dns.TypeA ruleAnswerA.Answer 300).2
    _ rfl _ (List.mem_singleton.mpr rfl)).1

/-- The loop on a rule that matches and is not limited: the switched counter is
incremented and the reply carries the answer set of the rule, or the panic met while
building it. -/
theorem switchLoop_switched {σ : Type} (L : Lib) (limit : dnsLimiter σ) (addr : IP)
    (req : dns.Msg) (q : dns.Question) (r : switchConfig) (st : State σ)
    (hr : sourceMatches L r.Source q.Name = true)
    (hl : (limit st.limiter addr r.Source r.MaxCount).1 = false)
    (hd : r.Destination = "") :
    switchLoop L limit addr req q [r] st =
      match makeDNSAnswer q.Name q.Qtype r.Answer r.TTL with
      | .error e => .error e
      | .ok answer =>
        .ok ((some { dns.Msg.zero.SetReply req with
                     Answer := (dns.Msg.zero.SetReply req).Answer ++ answer }, true),
          { limiter := (limit st.limiter addr r.Source r.MaxCount).2,
            metrics := st.metrics.IncSwitchedDNSRequests L addr }) := by
  rw [switchLoop]
  simp [hr, hl, hd]

/-- The answer block that does not configure the queried type gives no record. -/
theorem makeDNSAnswer_not_configured (name : String) (qtype : Nat) (config : Option dnsAnswer)
    (ttl : Nat)
    (h : (qtype ≠ dns.TypeA ∧ qtype ≠ dns.TypeAAAA ∧ qtype ≠ dns.TypeCNAME ∧
          qtype ≠ dns.TypeHTTPS) ∨
      ∃ c, config = some c ∧
        ((qtype = dns.TypeA ∧ c.A = none) ∨ (qtype = dns.TypeAAAA ∧ c.AAAA = none) ∨
         (qtype = dns.TypeCNAME ∧ c.CNAME = "") ∨ (qtype = dns.TypeHTTPS ∧ c.HTTPS = none))) :
    makeDNSAnswer name qtype config ttl = .ok [] := by
  unfold makeDNSAnswer
  rcases h with ⟨h1, h2, h3, h4⟩ | ⟨c, hc, h⟩
  · simp [h1, h2, h3, h4]
  · subst hc
    rcases h with ⟨hq, hv⟩ | ⟨hq, hv⟩ | ⟨hq, hv⟩ | ⟨hq, hv⟩
    · subst hq; simp [hv]
    · subst hq; simp [hv, dns.TypeAAAA, dns.TypeA]
    · subst hq; simp [hv, dns.TypeAAAA, dns.TypeA, dns.TypeCNAME]
    · subst hq; simp [hv, dns.TypeAAAA, dns.TypeA, dns.TypeCNAME, dns.TypeHTTPS]

/-- A nil answer block read for one of the four handled types panics. -/
theorem makeDNSAnswer_nil (name : String) (qtype : Nat) (ttl : Nat)
    (h : qtype = dns.TypeA ∨ qtype = dns.TypeAAAA ∨ qtype = dns.TypeCNAME ∨
      qtype = dns.TypeHTTPS) :
    makeDNSAnswer name qtype none ttl = .error nilDereference := by
  unfold makeDNSAnswer
  rcases h with h | h | h | h <;> subst h <;>
    simp [dns.TypeAAAA, dns.TypeA, dns.TypeCNAME, dns.TypeHTTPS]

/-- C11. When the first rule that matches the question is not limited, has an empty
destination, and either the queried type is none of A, AAAA, CNAME and HTTPS or the
rule has an answer block that does not configure the queried type, `Switch` returns
handled=true with the reply set on the request: Rcode NOERROR, an empty answer
section, the reply flag, the request's identifier and its first question. -/
theorem Switch_empty_answer {σ : Type} (L : Lib) (limit : dnsLimiter σ) (st : State σ)
    (traceID : String) (addr : IP) (req : dns.Msg) (q : dns.Question)
    (pre : List switchConfig) (r : switchConfig) (post : List switchConfig)
    (hq : req.Question.head? = some q)
    (hpre : ∀ c ∈ pre, sourceMatches L c.Source q.Name = false)
    (hr : sourceMatches L r.Source q.Name = true)
    (hl : (limit st.limiter addr r.Source r.MaxCount).1 = false)
    (hd : r.Destination = "")
    (hans : (q.Qtype ≠ dns.TypeA ∧ q.Qtype ≠ dns.TypeAAAA ∧ q.Qtype ≠ dns.TypeCNAME ∧
          q.Qtype ≠ dns.TypeHTTPS) ∨
      ∃ c, r.Answer = some c ∧
        ((q.Qtype = dns.TypeA ∧ c.A = none) ∨ (q.Qtype = dns.TypeAAAA ∧ c.AAAA = none) ∨
         (q.Qtype = dns.TypeCNAME ∧ c.CNAME = "") ∨
         (q.Qtype = dns.TypeHTTPS ∧ c.HTTPS = none))) :
    ∃ resp st', Switch L limit { Settings := pre ++ r :: post } st (some traceID) addr req =
        .ok ((some resp, true), st') ∧
      resp.Rcode = dns.RcodeSuccess ∧ resp.Answer = [] ∧
      resp.Response = true ∧ resp.Id = req.Id ∧ resp.Question = [q] := by
  cases hQ : req.Question with
  | nil => simp [hQ] at hq
  | cons q' qs =>
    simp [hQ] at hq
    subst hq
    refine ⟨dns.Msg.zero.SetReply req,
      { limiter := (limit st.limiter addr r.Source r.MaxCount).2,
        metrics := st.metrics.IncSwitchedDNSRequests L addr }, ?_, ?_, ?_, ?_, ?_, ?_⟩
    · unfold Switch
      simp only [UnpackTraceID, hQ]
      rw [switchLoop_first_match L limit addr req q' r post st hr pre hpre,
        switchLoop_switched L limit addr req q' r st hr hl hd,
        makeDNSAnswer_not_configured _ _ _ _ hans]
      simp only [List.append_nil]
    · unfold dns.Msg.SetReply
      simp [hQ]
    · exact SetReply_zero_Answer req
    · unfold dns.Msg.SetReply
      simp [hQ]
      split <;> rfl
    · unfold dns.Msg.SetReply
      simp [hQ]
      split <;> rfl
    · unfold dns.Msg.SetReply
      simp [hQ]

/-- C12 (the code misses the nil case). When the first rule that matches the question is
not limited and has neither a destination nor an answer block, a query of type A,
AAAA, CNAME or HTTPS makes `Switch` panic with a nil pointer dereference:
`makeDNSAnswer` reads a field of the nil `*dnsAnswer` without a nil check, so
`Switch` returns neither `(response, true)` nor `(nil, false)`. -/
theorem Switch_nil_answer_panics {σ : Type} (L : Lib) (limit : dnsLimiter σ) (st : State σ)
    (traceID : String) (addr : IP) (req : dns.Msg) (q : dns.Question)
    (pre : List switchConfig) (r : switchConfig) (post : List switchConfig)
    (hq : req.Question.head? = some q)
    (hpre : ∀ c ∈ pre, sourceMatches L c.Source q.Name = false)
    (hr : sourceMatches L r.Source q.Name = true)
    (hl : (limit st.limiter addr r.Source r.MaxCount).1 = false)
    (hd : r.Destination = "") (ha : r.Answer = none)
    (ht : q.Qtype = dns.TypeA ∨ q.Qtype = dns.TypeAAAA ∨ q.Qtype = dns.TypeCNAME ∨
      q.Qtype = dns.TypeHTTPS) :
    Switch L limit { Settings := pre ++ r :: post } st (some traceID) addr req =
      .error nilDereference := by
  cases hQ : req.Question with
  | nil => simp [hQ] at hq
  | cons q' qs =>
    simp [hQ] at hq
    subst hq
    unfold Switch
    simp only [UnpackTraceID, hQ]
    rw [switchLoop_first_match L limit addr req q' r post st hr pre hpre,
      switchLoop_switched L limit addr req q' r st hr hl hd, ha,
      makeDNSAnswer_nil _ _ _ ht]

/-- Witness for C11 at the fifth scenario of the specification: the rule with
`answer.https` only, asked for type A. -/
theorem Switch_empty_answer_witness :
    ∃ resp st', Switch plainLib (limiterAt plainLib 0) { Settings := [] ++ ruleHTTPS :: [] }
        state0 (some "trace") clientIP queryA = .ok ((some resp, true), st') ∧
      resp.Rcode = dns.RcodeSuccess ∧ resp.Answer = [] ∧
      resp.Response = true ∧ resp.Id = queryA.Id ∧
      resp.Question = [{ Name := "foo.example.", Qtype := dns.TypeA, Qclass := dns.ClassINET }] :=
  Switch_empty_answer plainLib (limiterAt plainLib 0) state0 "trace" clientIP queryA
    { Name := "foo.example.", Qtype := dns.TypeA, Qclass := dns.ClassINET }
    [] ruleHTTPS [] rfl (by simp) (by decide) rfl rfl
    (Or.inr ⟨_, rfl, Or.inl ⟨rfl, rfl⟩⟩)

/-- Witness for C12: the rule `foo.example.` with neither destination nor answer block,
asked for type A. -/
theorem Switch_nil_answer_panics_witness :
    Switch plainLib (limiterAt plainLib 0) { Settings := [] ++ ruleBare :: [] } state0
        (some "trace") clientIP queryA =
      .error "runtime error: invalid memory address or nil pointer dereference" :=
  Switch_nil_answer_panics plainLib (limiterAt plainLib 0) state0 "trace" clientIP queryA
    { Name := "foo.example.", Qtype := dns.TypeA, Qclass := dns.ClassINET }
    [] ruleBare [] rfl (by simp) (by decide) rfl rfl rfl (Or.inl rfl)

/-- An answer block that is present never makes `makeDNSAnswer` panic. -/
theorem makeDNSAnswer_some_ok (name : String) (qtype : Nat) (c : dnsAnswer) (ttl : Nat) :
    ∃ answers, makeDNSAnswer name qtype (some c) ttl = .ok answers := by
  unfold makeDNSAnswer
  split_ifs
  · cases h : c.A <;> simp [h]
  · cases h : c.AAAA <;> simp [h]
  · by_cases h : c.CNAME = "" <;> simp [h]
  · cases h : c.HTTPS <;> simp [h]
  · exact ⟨_, rfl⟩

/-- When every rule without destination has an answer block, `Switch` called with a
context that carries a trace identifier returns, and what it returns is a response
with handled=true or no response with handled=false. -/
theorem Switch_returns {σ : Type} (L : Lib) (limit : dnsLimiter σ) (config : Config)
    (st : State σ) (traceID : String) (addr : IP) (req : dns.Msg)
    (hcfg : ∀ c ∈ config.Settings, c.Destination = "" → c.Answer ≠ none) :
    ∃ st', (∃ resp, Switch L limit config st (some traceID) addr req =
        .ok ((some resp, true), st')) ∨
      Switch L limit config st (some traceID) addr req = .ok ((none, false), st') := by
  unfold Switch
  simp only [UnpackTraceID]
  cases hQ : req.Question with
  | nil => exact ⟨st, Or.inr rfl⟩
  | cons q qs =>
    simp only
    generalize config.Settings = rules at hcfg
    induction rules with
    | nil => exact ⟨st, Or.inr rfl⟩
    | cons c rest ih =>
      by_cases hm : sourceMatches L c.Source q.Name = true
      · rw [switchLoop]
        simp only [hm, Bool.not_true, Bool.false_eq_true, if_false]
        by_cases hl : (limit st.limiter addr c.Source c.MaxCount).1 = true
        · simp only [hl, if_true]
          exact ⟨_, Or.inr rfl⟩
        · simp only [hl, if_false]
          by_cases hd : c.Destination = ""
          · have hA := hcfg c (List.mem_cons_self _ _) hd
            obtain ⟨a, ha⟩ := Option.ne_none_iff_exists'.mp hA
            obtain ⟨answers, hans⟩ := makeDNSAnswer_some_ok q.Name q.Qtype a c.TTL
            simp only [hd, ne_eq, not_true_eq_false, if_false, ha, hans]
            exact ⟨_, Or.inl ⟨_, rfl⟩⟩
          · simp only [ne_eq, hd, not_false_eq_true, if_true]
            exact ⟨_, Or.inl ⟨_, rfl⟩⟩
      · have hm' : sourceMatches L c.Source q.Name = false := by simpa using hm
        rw [switchLoop_cons_no_match L limit addr req q c rest st hm']
        exact ih (fun c' hc' => hcfg c' (List.mem_cons_of_mem _ hc'))

end dnsswitcher

/-! ## dnsresolver: theorems -/

namespace dnsresolver

/-- A slice read inside the bounds returns the element. -/
theorem sliceIndex_ofNat {α : Type} (xs : List α) (i : Nat) (x : α) (h : xs[i]? = some x) :
    sliceIndex xs (i : Int) = .ok x := by
  unfold sliceIndex
  have : ¬ ((i : Int) < 0) := by omega
  simp [this, h]

/-- One round-robin call from an index in `0..k`: the entry at `index % k` is returned
and the index becomes `index % k + 1`. -/
theorem nameserver_roundRobin_step (s : Service) (d : Nat)
    (hmode : s.config.Mode = modeRoundRobin) (hne : s.config.Nameservers ≠ [])
    (h0 : 0 ≤ s.index) (hk : s.index ≤ s.config.Nameservers.length) :
    ∃ ns, s.config.Nameservers[s.index.toNat % s.config.Nameservers.length]? = some ns ∧
      s.nameserver d =
        .ok (ns, Service.mk s.config
          ((s.index.toNat % s.config.Nameservers.length : Nat) + 1 : Int)) := by
  have hpos : 0 < s.config.Nameservers.length := List.length_pos.mpr hne
  have hlt : s.index.toNat % s.config.Nameservers.length < s.config.Nameservers.length :=
    Nat.mod_lt _ hpos
  obtain ⟨ns, hns⟩ :
      ∃ ns, s.config.Nameservers[s.index.toNat % s.config.Nameservers.length]? = some ns :=
    ⟨_, List.getElem?_eq_getElem hlt⟩
  refine ⟨ns, hns, ?_⟩
  have hnr : s.config.Mode ≠ modeRandom := by
    rw [hmode]; decide
  unfold Service.nameserver
  rw [if_neg hnr, if_pos hmode]
  by_cases hge : s.index ≥ (s.config.Nameservers.length : Int)
  · have he : s.index = (s.config.Nameservers.length : Int) := le_antisymm hk hge
    have hz : s.index.toNat % s.config.Nameservers.length = 0 := by
      rw [he]; simp
    rw [hz] at hns
    simp only [hge, if_true]
    have := sliceIndex_ofNat s.config.Nameservers 0 ns hns
    simp only [Nat.cast_zero] at this
    rw [this, hz]
    simp
  · have hlt' : s.index.toNat < s.config.Nameservers.length := by omega
    have hz : s.index.toNat % s.config.Nameservers.length = s.index.toNat :=
      Nat.mod_eq_of_lt hlt'
    rw [hz] at hns
    simp only [hge, if_false]
    have := sliceIndex_ofNat s.config.Nameservers s.index.toNat ns hns
    rw [Int.toNat_of_nonneg h0] at this
    rw [this, hz, Int.toNat_of_nonneg h0]


/-- Sequential round-robin calls from an index in `0..k`: call number `t` returns the
entry at `(index + t) % k`, and the index stays in `0..k`. -/
theorem nameserverSeq_roundRobin (config : Config)
    (hmode : config.Mode = modeRoundRobin) (hne : config.Nameservers ≠ []) :
    ∀ (draws : List Nat) (s : Service), s.config = config →
      0 ≤ s.index → s.index ≤ config.Nameservers.length →
      ∃ out s', nameserverSeq s draws = .ok (out, s') ∧
        out.length = draws.length ∧
        (∀ t, t < draws.length →
          out[t]? = config.Nameservers[(s.index.toNat + t) % config.Nameservers.length]?) ∧
        s'.config = config ∧ 0 ≤ s'.index ∧ s'.index ≤ config.Nameservers.length := by
  have hpos : 0 < config.Nameservers.length := List.length_pos.mpr hne
  intro draws
  induction draws with
  | nil =>
    intro s hs h0 hk
    exact ⟨[], s, rfl, rfl, by simp, hs, h0, hk⟩
  | cons d ds ih =>
    intro s hs h0 hk
    subst hs
    obtain ⟨ns, hns, hstep⟩ := nameserver_roundRobin_step s d hmode hne h0 hk
    have hlt : s.index.toNat % s.config.Nameservers.length < s.config.Nameservers.length :=
      Nat.mod_lt _ hpos
    obtain ⟨out, s', hseq, hlen, hget, hcfg, h0', hk'⟩ :=
      ih (Service.mk s.config
          ((s.index.toNat % s.config.Nameservers.length : Nat) + 1 : Int)) rfl
        (by simp only; omega) (by simp only; omega)
    refine ⟨ns :: out, s', ?_, by simp [hlen], ?_, hcfg, h0', hk'⟩
    · simp only [nameserverSeq, hstep, hseq]
    · intro t ht
      cases t with
      | zero => simpa using hns.symm
      | succ t =>
        have ht' : t < ds.length := by simpa using ht
        have h1 := hget t ht'
        simp only [List.getElem?_cons_succ]
        rw [h1]
        have : ((((s.index.toNat % s.config.Nameservers.length : Nat) : Int) + 1).toNat + t)
            % s.config.Nameservers.length
            = (s.index.toNat + (t + 1)) % s.config.Nameservers.length := by
          have e : (((s.index.toNat % s.config.Nameservers.length : Nat) : Int) + 1).toNat
              = s.index.toNat % s.config.Nameservers.length + 1 := by omega
          rw [e, Nat.add_assoc, Nat.mod_add_mod, Nat.add_comm 1 t]
        rw [this]

/-- C7. In round-robin mode over a non-empty list of `k` nameservers, from every service
reached from `NewService` by sequential calls of `nameserver()`: the index lies in
`0..k`, the index the next call reads, `index % k`, is below `k`, and `k` consecutive
calls all return (no read is out of bounds) the list rotated by `index % k`, that is
the entries in list order with wrap-around, each exactly once. -/
theorem nameserver_roundRobin_cycle (config : Config) (pre draws : List Nat)
    (outPre : List nameserver) (s : Service)
    (hmode : config.Mode = modeRoundRobin) (hne : config.Nameservers ≠ [])
    (hreach : nameserverSeq (NewService config) pre = .ok (outPre, s))
    (hlen : draws.length = config.Nameservers.length) :
    0 ≤ s.index ∧ s.index ≤ config.Nameservers.length ∧
    s.index.toNat % config.Nameservers.length < config.Nameservers.length ∧
    (config.Nameservers.rotate (s.index.toNat % config.Nameservers.length)).Perm
      config.Nameservers ∧
    ∃ s', nameserverSeq s draws =
      .ok (config.Nameservers.rotate (s.index.toNat % config.Nameservers.length), s') := by
  have hpos : 0 < config.Nameservers.length := List.length_pos.mpr hne
  obtain ⟨out0, s0, hseq0, _, _, hcfg, h0, hk⟩ :=
    nameserverSeq_roundRobin config hmode hne pre (NewService config) rfl
      (by simp [NewService]) (by simp [NewService])
  rw [hreach] at hseq0
  injection hseq0 with hpair
  injection hpair with _ hs
  subst hs
  obtain ⟨out, s', hseq, hlen', hget, _, _, _⟩ :=
    nameserverSeq_roundRobin config hmode hne draws s hcfg h0 hk
  refine ⟨h0, hk, Nat.mod_lt _ hpos, List.rotate_perm _ _, s', ?_⟩
  have hout : out = config.Nameservers.rotate (s.index.toNat % config.Nameservers.length) := by
    apply List.ext_getElem?
    intro t
    by_cases ht : t < config.Nameservers.length
    · rw [hget t (by omega), List.getElem?_rotate ht, Nat.add_mod_mod, Nat.add_comm]
    · have h1 : out.length ≤ t := by omega
      have h2 : (config.Nameservers.rotate
          (s.index.toNat % config.Nameservers.length)).length ≤ t := by
        simp; omega
      rw [List.getElem?_eq_none h1, List.getElem?_eq_none h2]
  rw [hseq, hout]

/-- C6 (amended). On a service whose mode is neither `random` nor `round-robin` (the
constructor accepts every mode), every call of `nameserver()`, and every `Lookup`,
panics at request time with `resolver mode is not supported`. -/
theorem nameserver_unsupported_mode (s : Service) (m : Metrics) (exchange : Exchange)
    (draw : Nat) (traceID : String) (req : dns.Msg)
    (hr : s.config.Mode ≠ modeRandom) (hrr : s.config.Mode ≠ modeRoundRobin) :
    s.nameserver draw = .error "resolver mode is not supported" ∧
    Lookup s m exchange draw (some traceID) req =
      .error "resolver mode is not supported" := by
  have h1 : s.nameserver draw = .error "resolver mode is not supported" := by
    unfold Service.nameserver
    simp [hr, hrr]
  refine ⟨h1, ?_⟩
  unfold Lookup
  simp [UnpackTraceID, h1]

/-- C9. For every request, whenever the exchange with the selected nameserver fails with
a transport error or timeout, `Lookup` returns a response whose Rcode is SERVFAIL
(2), whose identifier is the request's, whose reply flag is set and whose question
section is the request's first question; the failed counter is incremented. -/
theorem Lookup_exchange_failure (s s1 : Service) (m : Metrics) (exchange : Exchange)
    (draw : Nat) (traceID : String) (req : dns.Msg) (ns : nameserver) (err : String)
    (hns : s.nameserver draw = .ok (ns, s1))
    (hex : exchange { Net := ns.Network, Timeout := s1.config.Timeout } req ns.Address =
      .error err) :
    ∃ resp, Lookup s m exchange draw (some traceID) req =
        .ok (resp, s1, m.IncResolvedDNSRequests StatusFailed) ∧
      resp.Rcode = 2 ∧ resp.Id = req.Id ∧ resp.Response = true ∧
      resp.Question = req.Question.take 1 := by
  refine ⟨dns.Msg.zero.SetRcode req dns.RcodeServerFailure, ?_, ?_, ?_, ?_, ?_⟩
  · unfold Lookup
    simp [UnpackTraceID, hns, hex]
  · simp [dns.Msg.SetRcode, dns.RcodeServerFailure]
  · unfold dns.Msg.SetRcode dns.Msg.SetReply
    cases req.Question <;> simp <;> split <;> rfl
  · unfold dns.Msg.SetRcode dns.Msg.SetReply
    cases req.Question <;> simp <;> split <;> rfl
  · unfold dns.Msg.SetRcode dns.Msg.SetReply
    cases hq : req.Question with
    | nil => simp [dns.Msg.zero]; split <;> rfl
    | cons q qs => simp [dns.Msg.zero]


/-- Witness for C7: three nameservers, after one call; the next three calls return the
second, the third and the first. -/
theorem nameserver_roundRobin_cycle_witness :
    threeServers.Mode = modeRoundRobin ∧ threeServers.Nameservers ≠ [] ∧
    ∃ s', nameserverSeq { config := threeServers, index := 1 } [0, 0, 0] =
      .ok ([{ Address := "192.0.2.2:53", Network := "udp" },
            { Address := "192.0.2.3:53", Network := "tcp" },
            { Address := "192.0.2.1:53", Network := "udp" }], s') :=
  ⟨rfl, by decide,
    (nameserver_roundRobin_cycle threeServers [0] [0, 0, 0]
      [{ Address := "192.0.2.1:53", Network := "udp" }] { config := threeServers, index := 1 }
      rfl (by decide) rfl rfl).2.2.2.2⟩

/-- Counterexample to C6 as stated: for the mode `sequential`, `NewService` returns a
service without complaint, and the first call of `nameserver()` on it panics. -/
theorem nameserver_mode_counterexample :
    sequentialMode.Mode ≠ modeRandom ∧ sequentialMode.Mode ≠ modeRoundRobin ∧
    NewService sequentialMode = { config := sequentialMode, index := 0 } ∧
    (NewService sequentialMode).nameserver 0 = .error "resolver mode is not supported" :=
  ⟨by decide, by decide, rfl, rfl⟩

/-- Witness for C6 (amended) at the mode `sequential`. -/
theorem nameserver_unsupported_mode_witness :
    sequentialMode.Mode ≠ modeRandom ∧ sequentialMode.Mode ≠ modeRoundRobin ∧
    (NewService sequentialMode).nameserver 0 = .error "resolver mode is not supported" ∧
    Lookup (NewService sequentialMode) NewMetrics timeoutExchange 0 (some "trace") queryA =
      .error "resolver mode is not supported" :=
  ⟨by decide, by decide,
    nameserver_unsupported_mode (NewService sequentialMode) NewMetrics timeoutExchange 0
      "trace" queryA
      (by decide) (by decide)⟩

/-- Witness for C9: the first of three nameservers times out on the query `queryA`. -/
theorem Lookup_exchange_failure_witness :
    ∃ resp, Lookup (NewService threeServers) NewMetrics timeoutExchange 0 (some "trace")
        queryA =
        .ok (resp, { config := threeServers, index := 1 },
          NewMetrics.IncResolvedDNSRequests StatusFailed) ∧
      resp.Rcode = 2 ∧ resp.Id = queryA.Id ∧ resp.Response = true ∧
      resp.Question = queryA.Question.take 1 :=
  Lookup_exchange_failure (NewService threeServers) { config := threeServers, index := 1 }
    NewMetrics timeoutExchange 0 "trace" queryA
    { Address := "192.0.2.1:53", Network := "udp" } "i/o timeout" rfl rfl

end dnsresolver

end MasqueradeDNS
